import Mathlib

/-!
Shallow embedding of the extendible hash table controller in
`src/project2/container/hash/extendible_hash_table.cpp` (BusTub project 2).

The controller source is translated line by line.  The directory page, the
bucket page, the buffer pool and the constants `MAX_BUCKET_DEPTH`,
`DIRECTORY_ARRAY_SIZE` and `BUCKET_CAPACITY` live outside `src/` and are
modelled from the spec (sections 3, 4.1, 4.2, 6); each such definition says
so in its doc comment.

Keys, values and page ids are naturals.  The hash function and the bucket
capacity are external parameters (`hashFn`, `cap`).  Buffer pool traffic is
recorded as an event trace (`Ev`), and every `assert(...)` of the source
whose truth is not forced by the model is recorded in a Bool result field
`ok` (conjunction of all assert conditions evaluated during the call).
-/

namespace ExtHash

/-- Modelled from the spec: §4.2 bucket page (its source is not under
`src/`).  A bucket is the list of its currently readable (key, value)
pairs in slot order; `BUCKET_CAPACITY` is the parameter `cap`. -/
abbrev Bucket := List (Nat × Nat)

namespace Bucket

/-- Modelled from the spec: §4.2 `lookup` — every value whose slot is
readable and whose key compares equal. -/
def getValue (b : Bucket) (k : Nat) : List Nat :=
  (b.filter (fun p => p.1 == k)).map (fun p => p.2)

/-- Modelled from the spec: §4.2 `is_full` — full ⇔ all `cap` slots
readable. -/
def isFull (cap : Nat) (b : Bucket) : Bool :=
  decide (cap ≤ b.length)

/-- Modelled from the spec: §4.2 `insert` — false if the exact pair already
exists or the bucket is full, else the pair is stored. -/
def insert (cap : Nat) (b : Bucket) (k v : Nat) : Bool × Bucket :=
  if b.contains (k, v) then (false, b)
  else if decide (cap ≤ b.length) then (false, b)
  else (true, b ++ [(k, v)])

/-- Modelled from the spec: §4.2 `remove` — clears the first matching slot;
false if no match. -/
def remove (b : Bucket) (k v : Nat) : Bool × Bucket :=
  if b.contains (k, v) then (true, b.erase (k, v)) else (false, b)

end Bucket

/-- Modelled from the spec: §6 — `MAX_DEPTH ≤ 9 (or whatever fits the
directory page)`; the source's constant `MAX_BUCKET_DEPTH` is declared in a
header outside `src/`. -/
def MAX_BUCKET_DEPTH : Nat := 9

/-- Modelled from the spec: the directory page holds `2^MAX_DEPTH` slots. -/
def DIRECTORY_ARRAY_SIZE : Nat := 512

/-- Modelled from the spec: §4.1 directory page (its source is not under
`src/`): a global depth and parallel arrays of bucket page ids and local
depths, each of physical length `DIRECTORY_ARRAY_SIZE`. -/
structure DirPage where
  globalDepth : Nat
  bucketPageIds : List Nat
  localDepths : List Nat
  deriving DecidableEq, Repr

namespace DirPage

/-- Modelled from the spec: §4.1 `size() = 1 << gd`. -/
def size (d : DirPage) : Nat := 2 ^ d.globalDepth

/-- Modelled from the spec: §4.1 `global_depth_mask() = (1 << gd) - 1`. -/
def getGlobalDepthMask (d : DirPage) : Nat := 2 ^ d.globalDepth - 1

/-- Modelled from the spec: §4.1 read of routing slot `i`. -/
def getBucketPageId (d : DirPage) (i : Nat) : Nat := d.bucketPageIds.getD i 0

/-- Modelled from the spec: §4.1 write of routing slot `i`. -/
def setBucketPageId (d : DirPage) (i p : Nat) : DirPage :=
  { d with bucketPageIds := d.bucketPageIds.set i p }

/-- Modelled from the spec: §4.1 `local_depth(i)`. -/
def getLocalDepth (d : DirPage) (i : Nat) : Nat := d.localDepths.getD i 0

/-- Modelled from the spec: §4.1 write of `local_depth[i]`. -/
def setLocalDepth (d : DirPage) (i ld : Nat) : DirPage :=
  { d with localDepths := d.localDepths.set i ld }

/-- Modelled from the spec: §4.1 `incr_local_depth(i)`. -/
def incrLocalDepth (d : DirPage) (i : Nat) : DirPage :=
  d.setLocalDepth i (d.getLocalDepth i + 1)

/-- Modelled from the spec: §4.1 `decr_local_depth(i)`. -/
def decrLocalDepth (d : DirPage) (i : Nat) : DirPage :=
  d.setLocalDepth i (d.getLocalDepth i - 1)

/-- Modelled from the spec: §4.1 `local_depth_mask(i) = (1 << ld[i]) - 1`. -/
def getLocalDepthMask (d : DirPage) (i : Nat) : Nat :=
  2 ^ d.getLocalDepth i - 1

/-- Modelled from the spec: §3 split-image index
`i XOR (1 << (local_depth[i] - 1))`. -/
def getSplitImageIndex (d : DirPage) (i : Nat) : Nat :=
  i ^^^ 2 ^ (d.getLocalDepth i - 1)

/-- Modelled from the spec: §4.1 `incr_global_depth()` duplicates entries
`[0, 2^gd)` into `[2^gd, 2^(gd+1))` and increments `gd`. -/
def incrGlobalDepth (d : DirPage) : DirPage :=
  { globalDepth := d.globalDepth + 1
    bucketPageIds := (List.range DIRECTORY_ARRAY_SIZE).map (fun i =>
      if d.size ≤ i ∧ i < 2 * d.size then d.getBucketPageId (i - d.size)
      else d.getBucketPageId i)
    localDepths := (List.range DIRECTORY_ARRAY_SIZE).map (fun i =>
      if d.size ≤ i ∧ i < 2 * d.size then d.getLocalDepth (i - d.size)
      else d.getLocalDepth i) }

/-- Modelled from the spec: §4.1 `decr_global_depth()` decrements `gd`
(the upper half of the arrays becomes logically dead). -/
def decrGlobalDepth (d : DirPage) : DirPage :=
  { d with globalDepth := d.globalDepth - 1 }

/-- Modelled from the spec: §4.1 `can_shrink()` — true iff
`max_i local_depth[i] < gd` (false on `gd = 0`). -/
def canShrink (d : DirPage) : Bool :=
  decide (0 < d.globalDepth) &&
    (List.range d.size).all (fun i => decide (d.getLocalDepth i < d.globalDepth))

/-- Modelled from the spec: §8 invariant 2 — the aliasing invariant checked
by `verify_integrity()`. -/
def verifyIntegrityOk (d : DirPage) : Bool :=
  (List.range d.size).all (fun i => (List.range d.size).all (fun j =>
    !(decide (j % 2 ^ d.getLocalDepth i = i % 2 ^ d.getLocalDepth i)) ||
      (decide (d.getBucketPageId j = d.getBucketPageId i) &&
       decide (d.getLocalDepth j = d.getLocalDepth i))))

end DirPage

/-- Buffer pool events recorded by the controller: page fetches,
allocations, unpins (with the dirty flag) and deletions.  Modelled from the
spec §6 (the buffer pool source is not under `src/`). -/
inductive Ev where
  | fetch (pid : Nat)
  | newpage (pid : Nat)
  | unpin (pid : Nat) (dirty : Bool)
  | delete (pid : Nat)
  deriving DecidableEq, Repr

/-- The whole table: whether `directory_page_id_` is still
`INVALID_PAGE_ID` (`dirInit = false`), the directory page id, the directory
page contents, and the pool of pages (`pages.get pid` is the bucket stored
on page `pid`; the directory's own slot in `pages` is unused).  New pages
are allocated at `pages.length` (`NewPage` returns zeroed storage). -/
structure TableState where
  dirInit : Bool
  dirPageId : Nat
  dir : DirPage
  pages : List Bucket
  deriving DecidableEq, Repr

/-- A fresh table: `directory_page_id_ = INVALID_PAGE_ID` (constructor,
source lines 26-31). -/
def initialState : TableState :=
  ⟨false, 0,
   ⟨0, List.replicate DIRECTORY_ARRAY_SIZE 0, List.replicate DIRECTORY_ARRAY_SIZE 0⟩,
   []⟩

/-- `FetchDirectoryPage` (source lines 66-98): on first use allocate the
directory page and the first bucket page, point slot 0 at that bucket,
unpin both dirty; then fetch the directory page. -/
def fetchDirectoryPage (st : TableState) : TableState × List Ev :=
  if st.dirInit then (st, [.fetch st.dirPageId])
  else
    let dpid := st.pages.length
    let bpid := st.pages.length + 1
    let dir0 : DirPage :=
      ⟨0, (List.replicate DIRECTORY_ARRAY_SIZE 0).set 0 bpid,
       List.replicate DIRECTORY_ARRAY_SIZE 0⟩
    (⟨true, dpid, dir0, st.pages ++ [[], []]⟩,
     [.newpage dpid, .newpage bpid, .unpin dpid true, .unpin bpid true, .fetch dpid])

section Ops

variable (hashFn : Nat → Nat) (cap : Nat)

/-- `Hash` (source lines 43-46): the 64-bit hash truncated to 32 bits. -/
def hashK (k : Nat) : Nat := hashFn k % 2 ^ 32

/-- `KeyToDirectoryIndex` (source lines 48-52). -/
def keyToDirectoryIndex (k : Nat) (d : DirPage) : Nat :=
  hashK hashFn k &&& d.getGlobalDepthMask

/-- `KeyToPageId` (source lines 54-58). -/
def keyToPageId (k : Nat) (d : DirPage) : Nat :=
  d.getBucketPageId (keyToDirectoryIndex hashFn k d)

/-- Result of a table operation: returned value, post state, buffer-pool
event trace, and the conjunction of the source's `assert` conditions that
the model does not make true by construction. -/
structure OpRes (α : Type) where
  ret : α
  st : TableState
  evs : List Ev
  ok : Bool
  deriving Repr

/-- `GetValue` (source lines 131-151): route, probe the bucket, unpin
bucket and directory clean. -/
def getV (st : TableState) (k : Nat) : OpRes (Bool × List Nat) :=
  let p := fetchDirectoryPage st
  let st1 := p.1
  let bpid := keyToPageId hashFn k st1.dir
  let vals := Bucket.getValue (st1.pages.getD bpid []) k
  ⟨(!vals.isEmpty, vals), st1,
   p.2 ++ [.fetch bpid, .unpin bpid false, .unpin st1.dirPageId false], true⟩

/-- The loop `for (i = start; i >= step; i -= step)` (source lines 230,
238) with an explicit iteration bound (any bound above the start index is
enough), kept structurally recursive so that it evaluates by reduction. -/
def downFromA (step : Nat) : Nat → Nat → List Nat
  | 0, _ => []
  | fuel + 1, i =>
    if 0 < step ∧ step ≤ i then i :: downFromA step fuel (i - step) else []

/-- The slots visited by `for (i = start; i >= step; i -= step)`
(source lines 230, 238); the C++ guard is checked before each body. -/
def downFrom (step : Nat) (i : Nat) : List Nat := downFromA step (i + 1) i

/-- The loop `for (i = start; i < bound; i += step)` (source lines 234,
242) with an explicit iteration bound. -/
def upFromA (step bound : Nat) : Nat → Nat → List Nat
  | 0, _ => []
  | fuel + 1, i =>
    if 0 < step ∧ i < bound then i :: upFromA step bound fuel (i + step) else []

/-- The slots visited by `for (i = start; i < bound; i += step)`
(source lines 234, 242). -/
def upFrom (step bound : Nat) (i : Nat) : List Nat := upFromA step bound (bound - i) i

theorem downFromA_irrel (step : Nat) :
    ∀ f1 f2 i, i < f1 → i < f2 → downFromA step f1 i = downFromA step f2 i := by
  intro f1
  induction f1 with
  | zero => intro f2 i h1 _; omega
  | succ f1 ih =>
    intro f2 i h1 h2
    cases f2 with
    | zero => omega
    | succ f2 =>
      show (if 0 < step ∧ step ≤ i then i :: downFromA step f1 (i - step) else []) =
        (if 0 < step ∧ step ≤ i then i :: downFromA step f2 (i - step) else [])
      by_cases h : 0 < step ∧ step ≤ i
      · rw [if_pos h, if_pos h, ih f2 (i - step) (by omega) (by omega)]
      · rw [if_neg h, if_neg h]

theorem downFrom_unfold (step i : Nat) :
    downFrom step i =
      if 0 < step ∧ step ≤ i then i :: downFrom step (i - step) else [] := by
  show (if 0 < step ∧ step ≤ i then i :: downFromA step i (i - step) else []) = _
  by_cases h : 0 < step ∧ step ≤ i
  · rw [if_pos h, if_pos h,
      downFromA_irrel step i (i - step + 1) (i - step) (by omega) (by omega)]
    rfl
  · rw [if_neg h, if_neg h]

theorem upFromA_irrel (step bound : Nat) :
    ∀ f1 f2 i, bound - i ≤ f1 → bound - i ≤ f2 →
      upFromA step bound f1 i = upFromA step bound f2 i := by
  intro f1
  induction f1 with
  | zero =>
    intro f2 i h1 _
    have hge : bound ≤ i := by omega
    show [] = upFromA step bound f2 i
    cases f2 with
    | zero => rfl
    | succ f2 =>
      show [] = (if 0 < step ∧ i < bound then i :: upFromA step bound f2 (i + step) else [])
      rw [if_neg (fun hc => absurd hc.2 (Nat.not_lt_of_le hge))]
  | succ f1 ih =>
    intro f2 i h1 h2
    cases f2 with
    | zero =>
      have hge : bound ≤ i := by omega
      show (if 0 < step ∧ i < bound then i :: upFromA step bound f1 (i + step) else []) = []
      rw [if_neg (fun hc => absurd hc.2 (Nat.not_lt_of_le hge))]
    | succ f2 =>
      show (if 0 < step ∧ i < bound then i :: upFromA step bound f1 (i + step) else []) =
        (if 0 < step ∧ i < bound then i :: upFromA step bound f2 (i + step) else [])
      by_cases h : 0 < step ∧ i < bound
      · rw [if_pos h, if_pos h, ih f2 (i + step) (by omega) (by omega)]
      · rw [if_neg h, if_neg h]

theorem upFrom_unfold (step bound i : Nat) :
    upFrom step bound i =
      if 0 < step ∧ i < bound then i :: upFrom step bound (i + step) else [] := by
  unfold upFrom
  cases hf : bound - i with
  | zero =>
    show ([] : List Nat) = _
    rw [if_neg (fun hc => by omega)]
  | succ f =>
    show (if 0 < step ∧ i < bound then i :: upFromA step bound f (i + step) else []) = _
    by_cases h : 0 < step ∧ i < bound
    · rw [if_pos h, if_pos h,
        upFromA_irrel step bound f (bound - (i + step)) (i + step) (by omega) (by omega)]
    · rw [if_neg h, if_neg h]

/-- One rewiring loop body (source lines 230-245): for each visited slot,
`SetBucketPageId(i, pid)` then `SetLocalDepth(i, GetLocalDepth(anchor))`
with the anchor read from the current directory. -/
def rewire (anchor pid : Nat) (slots : List Nat) (d : DirPage) : DirPage :=
  slots.foldl (fun dd i =>
    (dd.setBucketPageId i pid).setLocalDepth i (dd.getLocalDepth anchor)) d

/-- Result of the non-recursive part of `SplitInsert`: `retry = false`
means the `MAX_BUCKET_DEPTH` failure return (lines 193-197), `retry = true`
means the split happened and the tail call `Insert(key, value)` (line 273)
is still to run on `st`. -/
structure SplitRes where
  retry : Bool
  st : TableState
  evs : List Ev
  ok : Bool
  deriving Repr

/-- The directory after the split of the slot routed for `k` (source lines
199-245): optional doubling, `IncrLocalDepth`, the two writes at the split
image index, and the four alias-rewiring loops, with `ipid` the page id
`NewPage` returned for the image bucket. -/
def dirAfterSplit (d : DirPage) (k ipid : Nat) : DirPage :=
  let sbi := keyToDirectoryIndex hashFn k d
  let dirA := if d.getLocalDepth sbi = d.globalDepth then d.incrGlobalDepth else d
  let dirB := dirA.incrLocalDepth sbi
  let spid := keyToPageId hashFn k dirB
  let sii := dirB.getSplitImageIndex sbi
  let dirC := (dirB.setLocalDepth sii (dirB.getLocalDepth sbi)).setBucketPageId sii ipid
  let diff := 2 ^ dirC.getLocalDepth sbi
  let sz := dirC.size
  rewire sbi ipid (upFrom diff sz sii)
    (rewire sbi ipid (downFrom diff sii)
      (rewire sbi spid (upFrom diff sz sbi)
        (rewire sbi spid (downFrom diff sbi) dirC)))

/-- The value of `split_bucket_page_id` (source line 208): `KeyToPageId`
evaluated on the directory after doubling and `IncrLocalDepth`. -/
def splitPageId (d : DirPage) (k : Nat) : Nat :=
  let sbi := keyToDirectoryIndex hashFn k d
  let dirA := if d.getLocalDepth sbi = d.globalDepth then d.incrGlobalDepth else d
  keyToPageId hashFn k (dirA.incrLocalDepth sbi)

/-- The redistribution loop (source lines 248-261): each saved pair is
routed through `hash & local_depth_mask(sbi)` on the rewired directory
`dG`, asserted to target one of the two bucket pages, and inserted into
the corresponding bucket (both start from the reset state); the Bool
collects the source's asserts. -/
def redistStep (dG : DirPage) (sbi spid ipid : Nat)
    (acc : Bucket × Bucket × Bool) (pr : Nat × Nat) : Bucket × Bucket × Bool :=
  let ti := hashK hashFn pr.1 &&& dG.getLocalDepthMask sbi
  let tpid := dG.getBucketPageId ti
  let okT := acc.2.2 && (tpid == spid || tpid == ipid)
  if tpid = spid then
    let r := Bucket.insert cap acc.1 pr.1 pr.2
    (r.2, acc.2.1, okT && r.1)
  else
    let r := Bucket.insert cap acc.2.1 pr.1 pr.2
    (acc.1, r.2, okT && r.1)

def redistribute (dG : DirPage) (sbi spid ipid : Nat) (origin : Bucket) :
    Bucket × Bucket × Bool :=
  origin.foldl (redistStep hashFn cap dG sbi spid ipid) ([], [], true)

/-- The straight-line body of `SplitInsert` (source lines 185-270),
excluding the final tail call to `Insert`. -/
def splitStep (st : TableState) (k : Nat) : SplitRes :=
  let p := fetchDirectoryPage st
  let st1 := p.1
  let sbi := keyToDirectoryIndex hashFn k st1.dir
  let sdep := st1.dir.getLocalDepth sbi
  if MAX_BUCKET_DEPTH ≤ sdep then
    ⟨false, st1, p.2 ++ [.unpin st1.dirPageId false], true⟩
  else
    let spid := splitPageId hashFn st1.dir k
    let originArray := st1.pages.getD spid []
    let ipid := st1.pages.length
    let dirG := dirAfterSplit hashFn st1.dir k ipid
    let redis := redistribute hashFn cap dirG sbi spid ipid originArray
    let pages2 := ((st1.pages ++ [[]]).set spid redis.1).set ipid redis.2.1
    ⟨true, ⟨st1.dirInit, st1.dirPageId, dirG, pages2⟩,
     p.2 ++ [.fetch spid, .newpage ipid, .unpin spid true, .unpin ipid true,
             .unpin st1.dirPageId true],
     redis.2.2⟩

/-- The body of `Insert` after `FetchDirectoryPage` (source lines 160-180),
with the tail call `SplitInsert → Insert` abstracted as `recurse` (applied
to the state left by the split).  Fast path: if the routed bucket is not
full, attempt the bucket insert, unpin the bucket dirty and the directory
clean.  Otherwise unpin both clean and run the split. -/
def insertGo (recurse : TableState → Option (OpRes Bool)) (st1 : TableState)
    (ev1 : List Ev) (k v : Nat) : Option (OpRes Bool) :=
  let bpid := keyToPageId hashFn k st1.dir
  let b := st1.pages.getD bpid []
  if !Bucket.isFull cap b then
    let r := Bucket.insert cap b k v
    some ⟨r.1, { st1 with pages := st1.pages.set bpid r.2 },
          ev1 ++ [.fetch bpid, .unpin bpid true, .unpin st1.dirPageId false], true⟩
  else
    let evs := ev1 ++ [.fetch bpid, .unpin bpid false, .unpin st1.dirPageId false]
    let s := splitStep hashFn cap st1 k
    if s.retry then
      match recurse s.st with
      | none => none
      | some r => some ⟨r.ret, r.st, evs ++ s.evs ++ r.evs, s.ok && r.ok⟩
    else
      some ⟨false, s.st, evs ++ s.evs, s.ok⟩

/-- `Insert` (source lines 157-181) with fuel for the mutual recursion
`Insert → SplitInsert → Insert`; `none` means the fuel ran out. -/
def insertT : Nat → TableState → Nat → Nat → Option (OpRes Bool)
  | 0, _, _, _ => none
  | fuel + 1, st, k, v =>
    let p := fetchDirectoryPage st
    insertGo hashFn cap (fun st' => insertT fuel st' k v) p.1 p.2 k v

/-- `SplitInsert` (source lines 185-274): the straight-line body followed
by the tail call `return Insert(transaction, key, value)`. -/
def splitInsertT (fuel : Nat) (st : TableState) (k v : Nat) : Option (OpRes Bool) :=
  let s := splitStep hashFn cap st k
  if s.retry then
    match insertT hashFn cap fuel s.st k v with
    | none => none
    | some r => some ⟨r.ret, r.st, s.evs ++ r.evs, s.ok && r.ok⟩
  else
    some ⟨false, s.st, s.evs, s.ok⟩

/-- `Merge` (source lines 325-388).  Skip paths: local depth 0, split-image
depth mismatch, target bucket no longer empty.  Otherwise delete the target
page, repoint every slot holding either page id at the image page with the
decremented depth, and shrink the directory while possible. -/
def shrinkLoopA : Nat → DirPage → DirPage
  | 0, d => d
  | fuel + 1, d => if d.canShrink then shrinkLoopA fuel d.decrGlobalDepth else d

def shrinkLoop (d : DirPage) : DirPage := shrinkLoopA (d.globalDepth + 1) d

theorem canShrink_pos {d : DirPage} (h : d.canShrink = true) : 0 < d.globalDepth := by
  unfold DirPage.canShrink at h
  simp only [Bool.and_eq_true, decide_eq_true_eq] at h
  exact h.1

theorem shrinkLoopA_irrel :
    ∀ f1 f2 d, d.globalDepth < f1 → d.globalDepth < f2 →
      shrinkLoopA f1 d = shrinkLoopA f2 d := by
  intro f1
  induction f1 with
  | zero => intro f2 d h1 _; omega
  | succ f1 ih =>
    intro f2 d h1 h2
    cases f2 with
    | zero => omega
    | succ f2 =>
      show (if d.canShrink then shrinkLoopA f1 d.decrGlobalDepth else d) =
        (if d.canShrink then shrinkLoopA f2 d.decrGlobalDepth else d)
      by_cases h : d.canShrink = true
      · have h0 := canShrink_pos h
        have hgd : d.decrGlobalDepth.globalDepth = d.globalDepth - 1 := rfl
        rw [if_pos h, if_pos h, ih f2 d.decrGlobalDepth (by omega) (by omega)]
      · rw [if_neg h, if_neg h]

theorem shrinkLoop_unfold (d : DirPage) :
    shrinkLoop d = if d.canShrink then shrinkLoop d.decrGlobalDepth else d := by
  show (if d.canShrink then shrinkLoopA d.globalDepth d.decrGlobalDepth else d) = _
  by_cases h : d.canShrink = true
  · have h0 := canShrink_pos h
    have hgd : d.decrGlobalDepth.globalDepth = d.globalDepth - 1 := rfl
    rw [if_pos h, if_pos h,
      shrinkLoopA_irrel d.globalDepth (d.decrGlobalDepth.globalDepth + 1)
        d.decrGlobalDepth (by omega) (by omega)]
    rfl
  · rw [if_neg h, if_neg h]

def mergeT (st : TableState) (ti : Nat) : TableState × List Ev × Bool :=
  let p := fetchDirectoryPage st
  let st1 := p.1
  let d := st1.dir
  let tpid := d.getBucketPageId ti
  let ii := d.getSplitImageIndex ti
  let ld := d.getLocalDepth ti
  if ld = 0 then (st1, p.2 ++ [.unpin st1.dirPageId false], true)
  else if ld ≠ d.getLocalDepth ii then (st1, p.2 ++ [.unpin st1.dirPageId false], true)
  else
    let tb := st1.pages.getD tpid []
    if !tb.isEmpty then
      (st1, p.2 ++ [.fetch tpid, .unpin tpid false, .unpin st1.dirPageId false], true)
    else
      let ipid := d.getBucketPageId ii
      let d1 := ((d.setBucketPageId ti ipid).decrLocalDepth ti).decrLocalDepth ii
      let ok1 := d1.getLocalDepth ti == d1.getLocalDepth ii
      let d2 := (List.range d1.size).foldl (fun dd i =>
        if dd.getBucketPageId i = tpid ∨ dd.getBucketPageId i = ipid then
          (dd.setBucketPageId i ipid).setLocalDepth i (dd.getLocalDepth ti)
        else dd) d1
      let d3 := shrinkLoop d2
      (⟨st1.dirInit, st1.dirPageId, d3, st1.pages⟩,
       p.2 ++ [.fetch tpid, .unpin tpid false, .delete tpid, .unpin st1.dirPageId true],
       ok1)

/-- `Remove` (source lines 280-310): route, `bucket.Remove`, unpin the
bucket dirty and the directory clean; if the bucket is empty afterwards,
call `Merge` on the routed directory index. -/
def removeT (st : TableState) (k v : Nat) : OpRes Bool :=
  let p := fetchDirectoryPage st
  let st1 := p.1
  let bpid := keyToPageId hashFn k st1.dir
  let bi := keyToDirectoryIndex hashFn k st1.dir
  let r := Bucket.remove (st1.pages.getD bpid []) k v
  let st2 := { st1 with pages := st1.pages.set bpid r.2 }
  let evs := p.2 ++ [.fetch bpid, .unpin bpid true, .unpin st1.dirPageId false]
  if r.2.isEmpty then
    let m := mergeT st2 bi
    ⟨r.1, m.1, evs ++ m.2.1, m.2.2⟩
  else
    ⟨r.1, st2, evs, true⟩

/-- `GetGlobalDepth` (source lines 393-401). -/
def getGlobalDepthT (st : TableState) : Nat × TableState × List Ev :=
  let p := fetchDirectoryPage st
  (p.1.dir.globalDepth, p.1, p.2 ++ [.unpin p.1.dirPageId false])

/-- `VerifyIntegrity` (source lines 406-413); the Bool is whether the
directory's integrity assertion holds. -/
def verifyIntegrityT (st : TableState) : TableState × List Ev × Bool :=
  let p := fetchDirectoryPage st
  (p.1, p.2 ++ [.unpin p.1.dirPageId false], p.1.dir.verifyIntegrityOk)

/-- Directory slot to which `k` is currently routed. -/
def routedIndex (st : TableState) (k : Nat) : Nat :=
  keyToDirectoryIndex hashFn k st.dir

/-- Bucket page id to which `k` is currently routed. -/
def routedPageId (st : TableState) (k : Nat) : Nat :=
  keyToPageId hashFn k st.dir

/-- Contents of the bucket to which `k` is currently routed. -/
def routedBucket (st : TableState) (k : Nat) : Bucket :=
  st.pages.getD (routedPageId hashFn st k) []

/-- Local depth of the slot to which `k` is currently routed. -/
def routedDepth (st : TableState) (k : Nat) : Nat :=
  st.dir.getLocalDepth (routedIndex hashFn st k)

/-- The pair (k, v) is stored where a lookup of `k` would probe. -/
def storedAt (st : TableState) (k v : Nat) : Prop :=
  (k, v) ∈ routedBucket hashFn st k

instance (st : TableState) (k v : Nat) : Decidable (storedAt hashFn st k v) := by
  unfold storedAt; infer_instance

end Ops

/-- Basic well-formedness of a reachable, initialized table: the directory
arrays have their physical length, the global depth is within bounds,
local depths of live slots are at most the global depth, and every
directory entry names an already-allocated page. -/
def Inv (st : TableState) : Prop :=
  st.dirInit = true ∧
  st.dir.bucketPageIds.length = DIRECTORY_ARRAY_SIZE ∧
  st.dir.localDepths.length = DIRECTORY_ARRAY_SIZE ∧
  st.dir.globalDepth ≤ MAX_BUCKET_DEPTH ∧
  st.dirPageId < st.pages.length ∧
  (∀ i < st.dir.size, st.dir.getLocalDepth i ≤ st.dir.globalDepth) ∧
  (∀ i < st.dir.size, st.dir.getBucketPageId i < st.pages.length) ∧
  (∀ i < st.dir.size, st.dir.getBucketPageId i ≠ st.dirPageId)

instance (st : TableState) : Decidable (Inv st) := by
  unfold Inv DirPage.size; infer_instance

/-- A state the public interface can be entered from: either the directory
has not been created yet, or the table is well formed. -/
def WFState (st : TableState) : Prop :=
  st.dirInit = false ∨ Inv st

instance (st : TableState) : Decidable (WFState st) := by
  unfold WFState; infer_instance

/-! ### List access helpers -/

theorem getD_set_self {α : Type} (l : List α) (i : Nat) (a dflt : α)
    (h : i < l.length) : (l.set i a).getD i dflt = a := by
  simp [List.getD_eq_getElem?_getD, List.getElem?_set_self h]

theorem getD_set_ne {α : Type} (l : List α) {i j : Nat} (a dflt : α)
    (h : i ≠ j) : (l.set i a).getD j dflt = l.getD j dflt := by
  simp [List.getD_eq_getElem?_getD, List.getElem?_set_ne h]

theorem getD_set_oob {α : Type} (l : List α) {i : Nat} (a dflt : α)
    (h : l.length ≤ i) : (l.set i a).getD i dflt = l.getD i dflt := by
  rw [List.set_eq_of_length_le h]

theorem set_getD_self {α : Type} (l : List α) (i : Nat) (dflt : α) :
    l.set i (l.getD i dflt) = l := by
  apply List.ext_getElem?
  intro n
  by_cases hn : n = i
  · subst hn
    by_cases hlt : n < l.length
    · rw [List.getElem?_set_self hlt, List.getD_eq_getElem?_getD,
        List.getElem?_eq_getElem hlt]
      simp
    · rw [List.set_eq_of_length_le (Nat.le_of_not_lt hlt)]
  · rw [List.getElem?_set_ne (fun hh => hn hh.symm)]

theorem getD_map_range {α : Type} (f : Nat → α) (n i : Nat) (dflt : α)
    (h : i < n) : ((List.range n).map f).getD i dflt = f i := by
  simp [List.getD_eq_getElem?_getD, List.getElem?_map, List.getElem?_range h]

/-! ### Directory page accessor lemmas -/

namespace DirPage

theorem globalDepth_setBucketPageId (d : DirPage) (i p : Nat) :
    (d.setBucketPageId i p).globalDepth = d.globalDepth := rfl

theorem globalDepth_setLocalDepth (d : DirPage) (i ld : Nat) :
    (d.setLocalDepth i ld).globalDepth = d.globalDepth := rfl

theorem lenB_setBucketPageId (d : DirPage) (i p : Nat) :
    (d.setBucketPageId i p).bucketPageIds.length = d.bucketPageIds.length := by
  simp [setBucketPageId]

theorem lenL_setBucketPageId (d : DirPage) (i p : Nat) :
    (d.setBucketPageId i p).localDepths.length = d.localDepths.length := rfl

theorem lenB_setLocalDepth (d : DirPage) (i ld : Nat) :
    (d.setLocalDepth i ld).bucketPageIds.length = d.bucketPageIds.length := rfl

theorem lenL_setLocalDepth (d : DirPage) (i ld : Nat) :
    (d.setLocalDepth i ld).localDepths.length = d.localDepths.length := by
  simp [setLocalDepth]

theorem getBucketPageId_setBucketPageId_self (d : DirPage) (i p : Nat)
    (h : i < d.bucketPageIds.length) :
    (d.setBucketPageId i p).getBucketPageId i = p := by
  show (d.bucketPageIds.set i p).getD i 0 = p
  exact getD_set_self _ _ _ _ h

theorem getBucketPageId_setBucketPageId_ne (d : DirPage) {i j : Nat} (p : Nat)
    (h : i ≠ j) :
    (d.setBucketPageId i p).getBucketPageId j = d.getBucketPageId j := by
  show (d.bucketPageIds.set i p).getD j 0 = d.bucketPageIds.getD j 0
  exact getD_set_ne _ _ _ h

theorem getBucketPageId_setLocalDepth (d : DirPage) (i ld j : Nat) :
    (d.setLocalDepth i ld).getBucketPageId j = d.getBucketPageId j := rfl

theorem getLocalDepth_setBucketPageId (d : DirPage) (i p j : Nat) :
    (d.setBucketPageId i p).getLocalDepth j = d.getLocalDepth j := rfl

theorem getLocalDepth_setLocalDepth_self (d : DirPage) (i ld : Nat)
    (h : i < d.localDepths.length) :
    (d.setLocalDepth i ld).getLocalDepth i = ld := by
  show (d.localDepths.set i ld).getD i 0 = ld
  exact getD_set_self _ _ _ _ h

theorem getLocalDepth_setLocalDepth_ne (d : DirPage) {i j : Nat} (ld : Nat)
    (h : i ≠ j) :
    (d.setLocalDepth i ld).getLocalDepth j = d.getLocalDepth j := by
  show (d.localDepths.set i ld).getD j 0 = d.localDepths.getD j 0
  exact getD_set_ne _ _ _ h

theorem globalDepth_incrGlobalDepth (d : DirPage) :
    d.incrGlobalDepth.globalDepth = d.globalDepth + 1 := rfl

theorem lenB_incrGlobalDepth (d : DirPage) :
    d.incrGlobalDepth.bucketPageIds.length = DIRECTORY_ARRAY_SIZE := by
  simp [incrGlobalDepth]

theorem lenL_incrGlobalDepth (d : DirPage) :
    d.incrGlobalDepth.localDepths.length = DIRECTORY_ARRAY_SIZE := by
  simp [incrGlobalDepth]

theorem getBucketPageId_incrGlobalDepth (d : DirPage) {i : Nat}
    (h : i < DIRECTORY_ARRAY_SIZE) :
    d.incrGlobalDepth.getBucketPageId i =
      if d.size ≤ i ∧ i < 2 * d.size then d.getBucketPageId (i - d.size)
      else d.getBucketPageId i := by
  simp only [incrGlobalDepth, getBucketPageId]
  exact getD_map_range _ _ _ _ h

theorem getLocalDepth_incrGlobalDepth (d : DirPage) {i : Nat}
    (h : i < DIRECTORY_ARRAY_SIZE) :
    d.incrGlobalDepth.getLocalDepth i =
      if d.size ≤ i ∧ i < 2 * d.size then d.getLocalDepth (i - d.size)
      else d.getLocalDepth i := by
  simp only [incrGlobalDepth, getLocalDepth]
  exact getD_map_range _ _ _ _ h

theorem getBucketPageId_incrGlobalDepth_low (d : DirPage) {i : Nat}
    (hi : i < d.size) (h : i < DIRECTORY_ARRAY_SIZE) :
    d.incrGlobalDepth.getBucketPageId i = d.getBucketPageId i := by
  rw [getBucketPageId_incrGlobalDepth d h, if_neg]
  intro hc
  exact absurd hi (Nat.not_lt_of_le hc.1)

theorem getLocalDepth_incrGlobalDepth_low (d : DirPage) {i : Nat}
    (hi : i < d.size) (h : i < DIRECTORY_ARRAY_SIZE) :
    d.incrGlobalDepth.getLocalDepth i = d.getLocalDepth i := by
  rw [getLocalDepth_incrGlobalDepth d h, if_neg]
  intro hc
  exact absurd hi (Nat.not_lt_of_le hc.1)

theorem getBucketPageId_incrGlobalDepth_high (d : DirPage) {i : Nat}
    (hlo : d.size ≤ i) (hhi : i < 2 * d.size) (h : i < DIRECTORY_ARRAY_SIZE) :
    d.incrGlobalDepth.getBucketPageId i = d.getBucketPageId (i - d.size) := by
  rw [getBucketPageId_incrGlobalDepth d h, if_pos ⟨hlo, hhi⟩]

theorem getLocalDepth_incrGlobalDepth_high (d : DirPage) {i : Nat}
    (hlo : d.size ≤ i) (hhi : i < 2 * d.size) (h : i < DIRECTORY_ARRAY_SIZE) :
    d.incrGlobalDepth.getLocalDepth i = d.getLocalDepth (i - d.size) := by
  rw [getLocalDepth_incrGlobalDepth d h, if_pos ⟨hlo, hhi⟩]

end DirPage

/-! ### Loop slot lemmas -/

theorem downFrom_step_le {step : Nat} {i j : Nat} (hj : j ∈ downFrom step i) :
    step ≤ j := by
  induction i using Nat.strong_induction_on generalizing j with
  | _ i ih =>
    rw [downFrom_unfold] at hj
    split at hj
    · rename_i h
      rcases List.mem_cons.1 hj with rfl | hj'
      · exact h.2
      · exact ih _ (Nat.sub_lt (Nat.lt_of_lt_of_le h.1 h.2) h.1) hj'
    · exact absurd hj (List.not_mem_nil _)

theorem downFrom_le {step : Nat} {i j : Nat} (hj : j ∈ downFrom step i) :
    j ≤ i := by
  induction i using Nat.strong_induction_on generalizing j with
  | _ i ih =>
    rw [downFrom_unfold] at hj
    split at hj
    · rename_i h
      rcases List.mem_cons.1 hj with rfl | hj'
      · exact Nat.le_refl _
      · exact Nat.le_trans (ih _ (Nat.sub_lt (Nat.lt_of_lt_of_le h.1 h.2) h.1) hj')
          (Nat.sub_le _ _)
    · exact absurd hj (List.not_mem_nil _)

theorem downFrom_mod {step : Nat} {i j : Nat} (hj : j ∈ downFrom step i) :
    j % step = i % step := by
  induction i using Nat.strong_induction_on generalizing j with
  | _ i ih =>
    rw [downFrom_unfold] at hj
    split at hj
    · rename_i h
      rcases List.mem_cons.1 hj with rfl | hj'
      · rfl
      · have hrec := ih _ (Nat.sub_lt (Nat.lt_of_lt_of_le h.1 h.2) h.1) hj'
        rw [hrec]
        conv_rhs => rw [← Nat.sub_add_cancel h.2]
        rw [Nat.add_mod_right]
    · exact absurd hj (List.not_mem_nil _)

theorem upFrom_aux {step bound : Nat} :
    ∀ n i j, bound - i ≤ n → j ∈ upFrom step bound i →
      i ≤ j ∧ j < bound ∧ j % step = i % step := by
  intro n
  induction n with
  | zero =>
    intro i j hn hj
    rw [upFrom_unfold] at hj
    split at hj
    · rename_i h; omega
    · exact absurd hj (List.not_mem_nil _)
  | succ n ihn =>
    intro i j hn hj
    rw [upFrom_unfold] at hj
    split at hj
    · rename_i h
      rcases List.mem_cons.1 hj with rfl | hj'
      · exact ⟨Nat.le_refl _, h.2, rfl⟩
      · have hrec := ihn (i + step) j (by omega) hj'
        refine ⟨by omega, hrec.2.1, ?_⟩
        rw [hrec.2.2, Nat.add_mod_right]
    · exact absurd hj (List.not_mem_nil _)

theorem upFrom_start_le {step bound i j : Nat} (hj : j ∈ upFrom step bound i) :
    i ≤ j :=
  (upFrom_aux (bound - i) i j (Nat.le_refl _) hj).1

theorem upFrom_lt_bound {step bound i j : Nat} (hj : j ∈ upFrom step bound i) :
    j < bound :=
  (upFrom_aux (bound - i) i j (Nat.le_refl _) hj).2.1

theorem upFrom_mod {step bound i j : Nat} (hj : j ∈ upFrom step bound i) :
    j % step = i % step :=
  (upFrom_aux (bound - i) i j (Nat.le_refl _) hj).2.2

theorem mem_upFrom_self {step bound i : Nat} (hs : 0 < step) (h : i < bound) :
    i ∈ upFrom step bound i := by
  rw [upFrom_unfold, if_pos ⟨hs, h⟩]
  exact List.mem_cons_self _ _

/-! ### Rewiring loop lemmas -/

theorem rewire_nil (a p : Nat) (d : DirPage) : rewire a p [] d = d := rfl

theorem rewire_cons (a p s : Nat) (rest : List Nat) (d : DirPage) :
    rewire a p (s :: rest) d =
      rewire a p rest ((d.setBucketPageId s p).setLocalDepth s (d.getLocalDepth a)) := rfl

theorem rewire_globalDepth (a p : Nat) (slots : List Nat) (d : DirPage) :
    (rewire a p slots d).globalDepth = d.globalDepth := by
  induction slots generalizing d with
  | nil => rfl
  | cons s rest ih =>
    rw [rewire_cons, ih]
    rfl

theorem rewire_lenB (a p : Nat) (slots : List Nat) (d : DirPage) :
    (rewire a p slots d).bucketPageIds.length = d.bucketPageIds.length := by
  induction slots generalizing d with
  | nil => rfl
  | cons s rest ih =>
    rw [rewire_cons, ih]
    simp [DirPage.setLocalDepth, DirPage.setBucketPageId]

theorem rewire_lenL (a p : Nat) (slots : List Nat) (d : DirPage) :
    (rewire a p slots d).localDepths.length = d.localDepths.length := by
  induction slots generalizing d with
  | nil => rfl
  | cons s rest ih =>
    rw [rewire_cons, ih]
    simp [DirPage.setLocalDepth, DirPage.setBucketPageId]

theorem DirPage.getLocalDepth_setLocalDepth_oob (d : DirPage) {i : Nat} (ld : Nat)
    (h : d.localDepths.length ≤ i) :
    (d.setLocalDepth i ld).getLocalDepth i = d.getLocalDepth i := by
  show (d.localDepths.set i ld).getD i 0 = d.localDepths.getD i 0
  rw [List.set_eq_of_length_le h]

theorem DirPage.getBucketPageId_setBucketPageId_oob (d : DirPage) {i : Nat} (p : Nat)
    (h : d.bucketPageIds.length ≤ i) :
    (d.setBucketPageId i p).getBucketPageId i = d.getBucketPageId i := by
  show (d.bucketPageIds.set i p).getD i 0 = d.bucketPageIds.getD i 0
  rw [List.set_eq_of_length_le h]

theorem getLocalDepth_step_anchor (d : DirPage) (a p s : Nat) :
    ((d.setBucketPageId s p).setLocalDepth s (d.getLocalDepth a)).getLocalDepth a =
    d.getLocalDepth a := by
  by_cases hsa : s = a
  · subst hsa
    by_cases hlen : s < (d.setBucketPageId s p).localDepths.length
    · rw [DirPage.getLocalDepth_setLocalDepth_self _ _ _ hlen]
    · rw [DirPage.getLocalDepth_setLocalDepth_oob _ _ (Nat.le_of_not_lt hlen)]
      rfl
  · rw [DirPage.getLocalDepth_setLocalDepth_ne _ _ hsa]
    rfl

theorem rewire_getLocalDepth_anchor (a p : Nat) (slots : List Nat) (d : DirPage) :
    (rewire a p slots d).getLocalDepth a = d.getLocalDepth a := by
  induction slots generalizing d with
  | nil => rfl
  | cons s rest ih =>
    rw [rewire_cons, ih, getLocalDepth_step_anchor]

theorem rewire_getLocalDepth_notmem (a p : Nat) {slots : List Nat} {i : Nat}
    (d : DirPage) (h : i ∉ slots) :
    (rewire a p slots d).getLocalDepth i = d.getLocalDepth i := by
  induction slots generalizing d with
  | nil => rfl
  | cons s rest ih =>
    have hs : i ≠ s := fun hc => h (hc ▸ List.mem_cons_self _ _)
    have hr : i ∉ rest := fun hc => h (List.mem_cons_of_mem _ hc)
    rw [rewire_cons, ih _ hr, DirPage.getLocalDepth_setLocalDepth_ne _ _ (Ne.symm hs)]
    rfl

theorem rewire_getBucketPageId_notmem (a p : Nat) {slots : List Nat} {i : Nat}
    (d : DirPage) (h : i ∉ slots) :
    (rewire a p slots d).getBucketPageId i = d.getBucketPageId i := by
  induction slots generalizing d with
  | nil => rfl
  | cons s rest ih =>
    have hs : i ≠ s := fun hc => h (hc ▸ List.mem_cons_self _ _)
    have hr : i ∉ rest := fun hc => h (List.mem_cons_of_mem _ hc)
    rw [rewire_cons, ih _ hr, DirPage.getBucketPageId_setLocalDepth,
      DirPage.getBucketPageId_setBucketPageId_ne _ _ (Ne.symm hs)]

theorem rewire_getLocalDepth_mem (a p : Nat) {slots : List Nat} {i : Nat}
    (d : DirPage) (hmem : i ∈ slots) (hlen : i < d.localDepths.length) :
    (rewire a p slots d).getLocalDepth i = d.getLocalDepth a := by
  induction slots generalizing d with
  | nil => cases hmem
  | cons s rest ih =>
    rw [rewire_cons]
    by_cases hir : i ∈ rest
    · rw [ih _ hir (by simpa [DirPage.setLocalDepth, DirPage.setBucketPageId] using hlen),
        getLocalDepth_step_anchor]
    · have his : i = s := by
        rcases List.mem_cons.1 hmem with rfl | hc
        · rfl
        · exact absurd hc hir
      subst his
      rw [rewire_getLocalDepth_notmem _ _ _ hir,
        DirPage.getLocalDepth_setLocalDepth_self _ _ _ (by simpa using hlen)]

theorem rewire_getBucketPageId_mem (a p : Nat) {slots : List Nat} {i : Nat}
    (d : DirPage) (hmem : i ∈ slots) (hlen : i < d.bucketPageIds.length) :
    (rewire a p slots d).getBucketPageId i = p := by
  induction slots generalizing d with
  | nil => cases hmem
  | cons s rest ih =>
    rw [rewire_cons]
    by_cases hir : i ∈ rest
    · exact ih _ hir (by simpa [DirPage.setLocalDepth, DirPage.setBucketPageId] using hlen)
    · have his : i = s := by
        rcases List.mem_cons.1 hmem with rfl | hc
        · rfl
        · exact absurd hc hir
      subst his
      rw [rewire_getBucketPageId_notmem _ _ _ hir,
        DirPage.getBucketPageId_setLocalDepth,
        DirPage.getBucketPageId_setBucketPageId_self _ _ _ hlen]

theorem rewire_getLocalDepth_oob (a p : Nat) (slots : List Nat) {i : Nat}
    (d : DirPage) (hlen : d.localDepths.length ≤ i) :
    (rewire a p slots d).getLocalDepth i = d.getLocalDepth i := by
  induction slots generalizing d with
  | nil => rfl
  | cons s rest ih =>
    rw [rewire_cons, ih _ (by simpa [DirPage.setLocalDepth, DirPage.setBucketPageId] using hlen)]
    by_cases hsi : s = i
    · subst hsi
      rw [DirPage.getLocalDepth_setLocalDepth_oob _ _ (by simpa using hlen)]
      rfl
    · rw [DirPage.getLocalDepth_setLocalDepth_ne _ _ hsi]
      rfl

theorem rewire_getBucketPageId_oob (a p : Nat) (slots : List Nat) {i : Nat}
    (d : DirPage) (hlen : d.bucketPageIds.length ≤ i) :
    (rewire a p slots d).getBucketPageId i = d.getBucketPageId i := by
  induction slots generalizing d with
  | nil => rfl
  | cons s rest ih =>
    rw [rewire_cons, ih _ (by simpa [DirPage.setLocalDepth, DirPage.setBucketPageId] using hlen),
      DirPage.getBucketPageId_setLocalDepth]
    by_cases hsi : s = i
    · subst hsi
      rw [DirPage.getBucketPageId_setBucketPageId_oob _ _ hlen]
    · rw [DirPage.getBucketPageId_setBucketPageId_ne _ _ hsi]

theorem rewire_getLocalDepth_cases (a p : Nat) (slots : List Nat) (d : DirPage)
    (i : Nat) :
    (rewire a p slots d).getLocalDepth i = d.getLocalDepth i ∨
    (rewire a p slots d).getLocalDepth i = d.getLocalDepth a := by
  by_cases him : i ∈ slots
  · by_cases hlen : i < d.localDepths.length
    · right
      exact rewire_getLocalDepth_mem _ _ _ him hlen
    · left
      exact rewire_getLocalDepth_oob _ _ _ _ (Nat.le_of_not_lt hlen)
  · left
    exact rewire_getLocalDepth_notmem _ _ _ him

theorem rewire_getBucketPageId_cases (a p : Nat) (slots : List Nat) (d : DirPage)
    (i : Nat) :
    (rewire a p slots d).getBucketPageId i = d.getBucketPageId i ∨
    (rewire a p slots d).getBucketPageId i = p := by
  by_cases him : i ∈ slots
  · by_cases hlen : i < d.bucketPageIds.length
    · right
      exact rewire_getBucketPageId_mem _ _ _ him hlen
    · left
      exact rewire_getBucketPageId_oob _ _ _ _ (Nat.le_of_not_lt hlen)
  · left
    exact rewire_getBucketPageId_notmem _ _ _ him

/-! ### Small accessor corollaries -/

theorem DirPage.globalDepth_incrLocalDepth (d : DirPage) (i : Nat) :
    (d.incrLocalDepth i).globalDepth = d.globalDepth := rfl

theorem DirPage.lenB_incrLocalDepth (d : DirPage) (i : Nat) :
    (d.incrLocalDepth i).bucketPageIds.length = d.bucketPageIds.length := rfl

theorem DirPage.lenL_incrLocalDepth (d : DirPage) (i : Nat) :
    (d.incrLocalDepth i).localDepths.length = d.localDepths.length := by
  simp [DirPage.incrLocalDepth, DirPage.setLocalDepth]

theorem DirPage.getBucketPageId_incrLocalDepth (d : DirPage) (i j : Nat) :
    (d.incrLocalDepth i).getBucketPageId j = d.getBucketPageId j := rfl

theorem DirPage.getLocalDepth_incrLocalDepth_self (d : DirPage) {i : Nat}
    (h : i < d.localDepths.length) :
    (d.incrLocalDepth i).getLocalDepth i = d.getLocalDepth i + 1 :=
  DirPage.getLocalDepth_setLocalDepth_self _ _ _ h

theorem DirPage.getLocalDepth_incrLocalDepth_ne (d : DirPage) {i j : Nat}
    (h : i ≠ j) :
    (d.incrLocalDepth i).getLocalDepth j = d.getLocalDepth j :=
  DirPage.getLocalDepth_setLocalDepth_ne _ _ h

/-! ### Arithmetic bridges -/

theorem keyToDirectoryIndex_eq_mod (hashFn : Nat → Nat) (k : Nat) (d : DirPage) :
    keyToDirectoryIndex hashFn k d = hashK hashFn k % 2 ^ d.globalDepth :=
  Nat.and_pow_two_sub_one_eq_mod _ _

theorem mod_two_pow_succ_or (h n : Nat) :
    h % 2 ^ (n + 1) = h % 2 ^ n ∨ h % 2 ^ (n + 1) = h % 2 ^ n + 2 ^ n := by
  have h2 : (2 : Nat) ^ (n + 1) = 2 ^ n * 2 := by rw [Nat.pow_succ]
  rw [h2, Nat.mod_mul]
  rcases Nat.mod_two_eq_zero_or_one (h / 2 ^ n) with h0 | h1
  · left; rw [h0, Nat.mul_zero, Nat.add_zero]
  · right; rw [h1, Nat.mul_one]

theorem xor_two_pow_mod_succ_ne (a L : Nat) :
    (a ^^^ 2 ^ L) % 2 ^ (L + 1) ≠ a % 2 ^ (L + 1) := by
  intro hEq
  have hb := congrArg (fun x => Nat.testBit x L) hEq
  simp only [Nat.testBit_mod_two_pow, Nat.testBit_xor, Nat.testBit_two_pow_self,
    Nat.lt_succ_self, decide_eq_true_eq, decide_True, Bool.true_and] at hb
  revert hb
  cases Nat.testBit a L <;> decide

theorem xor_two_pow_eq_add {a L : Nat} (h : a < 2 ^ L) :
    a ^^^ 2 ^ L = a + 2 ^ L := by
  have hpow : ∀ m, (2 : Nat) ^ L < 2 ^ (L + m + 1) := by
    intro m
    calc (2 : Nat) ^ L < 2 ^ L * 2 ^ (m + 1) := by
          have h1 : 1 < (2 : Nat) ^ (m + 1) :=
            Nat.one_lt_two_pow_iff.mpr (Nat.succ_ne_zero m)
          have h0 : 0 < (2 : Nat) ^ L := Nat.two_pow_pos L
          calc (2 : Nat) ^ L = 2 ^ L * 1 := by rw [Nat.mul_one]
            _ < 2 ^ L * 2 ^ (m + 1) := Nat.mul_lt_mul_of_le_of_lt (Nat.le_refl _) h1 h0
      _ = 2 ^ (L + m + 1) := by rw [← Nat.pow_add]; ring_nf
  apply Nat.eq_of_testBit_eq
  intro j
  rcases Nat.lt_trichotomy j L with hj | rfl | hj
  · rw [Nat.testBit_xor, Nat.testBit_two_pow_of_ne (Nat.ne_of_gt hj),
      Nat.add_comm, Nat.testBit_two_pow_add_gt hj]
    simp
  · rw [Nat.testBit_xor, Nat.testBit_two_pow_self, Nat.add_comm,
      Nat.testBit_two_pow_add_eq, Nat.testBit_lt_two_pow h]
    rfl
  · have h1 : a ^^^ 2 ^ L < 2 ^ j := by
      apply Nat.lt_of_lt_of_le (m := 2 ^ (L + 1))
      · exact Nat.xor_lt_two_pow (Nat.lt_trans h (by simpa using hpow 0)) (by simpa using hpow 0)
      · exact Nat.pow_le_pow_right (by omega) hj
    have h2 : a + 2 ^ L < 2 ^ j := by
      apply Nat.lt_of_lt_of_le (m := 2 ^ (L + 1))
      · have : (2:Nat) ^ (L+1) = 2 ^ L + 2 ^ L := by rw [Nat.pow_succ]; omega
        omega
      · exact Nat.pow_le_pow_right (by omega) hj
    rw [Nat.testBit_lt_two_pow h1, Nat.testBit_lt_two_pow h2]

theorem xor_two_pow_ne (a L : Nat) : a ^^^ 2 ^ L ≠ a := by
  intro hEq
  exact xor_two_pow_mod_succ_ne a L (by rw [hEq])

theorem keyToPageId_eq (hashFn : Nat → Nat) (k : Nat) (d : DirPage) :
    keyToPageId hashFn k d = d.getBucketPageId (hashK hashFn k % 2 ^ d.globalDepth) := by
  unfold keyToPageId
  rw [keyToDirectoryIndex_eq_mod]

theorem two_pow_le_dir_size {g : Nat} (h : g ≤ MAX_BUCKET_DEPTH) :
    2 ^ g ≤ DIRECTORY_ARRAY_SIZE := by
  calc (2 : Nat) ^ g ≤ 2 ^ MAX_BUCKET_DEPTH := Nat.pow_le_pow_right (by omega) h
    _ = DIRECTORY_ARRAY_SIZE := by decide

/-! ### Bucket operation lemmas -/

namespace Bucket

theorem contains_iff (b : Bucket) (k v : Nat) :
    b.contains (k, v) = true ↔ (k, v) ∈ b := List.elem_iff

theorem insert_snd_sup (cap : Nat) (b : Bucket) (k v : Nat) {q : Nat × Nat}
    (h : q ∈ b) : q ∈ (insert cap b k v).2 := by
  unfold insert
  split
  · exact h
  · split
    · exact h
    · exact List.mem_append_left _ h

theorem mem_insert_snd (cap : Nat) (b : Bucket) (k v : Nat) {q : Nat × Nat}
    (h : q ∈ (insert cap b k v).2) : q ∈ b ∨ q = (k, v) := by
  unfold insert at h
  split at h
  · exact Or.inl h
  · split at h
    · exact Or.inl h
    · rcases List.mem_append.1 h with h' | h'
      · exact Or.inl h'
      · exact Or.inr (List.mem_singleton.1 h')

theorem insert_true_mem (cap : Nat) (b : Bucket) (k v : Nat) :
    (insert cap b k v).1 = true → (k, v) ∈ (insert cap b k v).2 := by
  unfold insert
  split
  · intro h; cases h
  · split
    · intro h; cases h
    · intro _
      exact List.mem_append_right _ (List.mem_singleton.2 rfl)

theorem insert_of_contains (cap : Nat) (b : Bucket) (k v : Nat)
    (h : (k, v) ∈ b) : insert cap b k v = (false, b) := by
  unfold insert
  rw [if_pos ((contains_iff b k v).2 h)]

theorem insert_false_iff (cap : Nat) (b : Bucket) (k v : Nat) :
    (insert cap b k v).1 = false ↔ ((k, v) ∈ b ∨ cap ≤ b.length) := by
  unfold insert
  by_cases hc : b.contains (k, v) = true
  · rw [if_pos hc]
    simp [(contains_iff b k v).1 hc]
  · rw [if_neg hc]
    have hnc : (k, v) ∉ b := fun hm => hc ((contains_iff b k v).2 hm)
    by_cases hf : cap ≤ b.length
    · rw [if_pos (by simpa using hf)]
      simpa using Or.inr hf
    · rw [if_neg (by simpa using hf)]
      simp [hnc, hf]

theorem remove_false_iff (b : Bucket) (k v : Nat) :
    (remove b k v).1 = false ↔ (k, v) ∉ b := by
  unfold remove
  by_cases hc : b.contains (k, v) = true
  · rw [if_pos hc]
    simp [(contains_iff b k v).1 hc]
  · rw [if_neg hc]
    constructor
    · intro _ hm
      exact hc ((contains_iff b k v).2 hm)
    · intro _
      rfl

end Bucket

/-! ### Redistribution loop lemmas -/

section RedistLemmas

variable (hashFn : Nat → Nat) (cap : Nat) (dG : DirPage) (sbi spid ipid : Nat)

theorem redistStep_ok_mono (acc : Bucket × Bucket × Bool) (pr : Nat × Nat)
    (h : (redistStep hashFn cap dG sbi spid ipid acc pr).2.2 = true) :
    acc.2.2 = true := by
  simp only [redistStep] at h
  split at h <;> simp only [Bool.and_eq_true] at h <;> exact h.1.1

theorem redist_fold_ok_mono (origin : Bucket) :
    ∀ acc : Bucket × Bucket × Bool,
      (origin.foldl (redistStep hashFn cap dG sbi spid ipid) acc).2.2 = true →
      acc.2.2 = true := by
  induction origin with
  | nil => intro acc h; exact h
  | cons pr rest ih =>
    intro acc h
    rw [List.foldl_cons] at h
    exact redistStep_ok_mono hashFn cap dG sbi spid ipid acc pr (ih _ h)

theorem redistStep_fst_sup (acc : Bucket × Bucket × Bool) (pr : Nat × Nat)
    {q : Nat × Nat} (h : q ∈ acc.1) :
    q ∈ (redistStep hashFn cap dG sbi spid ipid acc pr).1 := by
  simp only [redistStep]
  split
  · exact Bucket.insert_snd_sup _ _ _ _ h
  · exact h

theorem redistStep_img_sup (acc : Bucket × Bucket × Bool) (pr : Nat × Nat)
    {q : Nat × Nat} (h : q ∈ acc.2.1) :
    q ∈ (redistStep hashFn cap dG sbi spid ipid acc pr).2.1 := by
  simp only [redistStep]
  split
  · exact h
  · exact Bucket.insert_snd_sup _ _ _ _ h

theorem redist_fold_fst_sup (origin : Bucket) :
    ∀ (acc : Bucket × Bucket × Bool) {q : Nat × Nat}, q ∈ acc.1 →
      q ∈ (origin.foldl (redistStep hashFn cap dG sbi spid ipid) acc).1 := by
  induction origin with
  | nil => intro acc q h; exact h
  | cons pr rest ih =>
    intro acc q h
    rw [List.foldl_cons]
    exact ih _ (redistStep_fst_sup hashFn cap dG sbi spid ipid acc pr h)

theorem redist_fold_img_sup (origin : Bucket) :
    ∀ (acc : Bucket × Bucket × Bool) {q : Nat × Nat}, q ∈ acc.2.1 →
      q ∈ (origin.foldl (redistStep hashFn cap dG sbi spid ipid) acc).2.1 := by
  induction origin with
  | nil => intro acc q h; exact h
  | cons pr rest ih =>
    intro acc q h
    rw [List.foldl_cons]
    exact ih _ (redistStep_img_sup hashFn cap dG sbi spid ipid acc pr h)

theorem redist_fold_backward (origin : Bucket) :
    ∀ (acc : Bucket × Bucket × Bool) {q : Nat × Nat},
      (q ∈ (origin.foldl (redistStep hashFn cap dG sbi spid ipid) acc).1 →
        q ∈ acc.1 ∨ q ∈ origin) ∧
      (q ∈ (origin.foldl (redistStep hashFn cap dG sbi spid ipid) acc).2.1 →
        q ∈ acc.2.1 ∨ q ∈ origin) := by
  induction origin with
  | nil => intro acc q; exact ⟨Or.inl, Or.inl⟩
  | cons pr rest ih =>
    intro acc q
    rw [List.foldl_cons]
    constructor
    · intro h
      rcases (ih _).1 h with h' | h'
      · simp only [redistStep] at h'
        split at h'
        · rcases Bucket.mem_insert_snd _ _ _ _ h' with h'' | h''
          · exact Or.inl h''
          · exact Or.inr (h'' ▸ List.mem_cons_self _ _)
        · exact Or.inl h'
      · exact Or.inr (List.mem_cons_of_mem _ h')
    · intro h
      rcases (ih _).2 h with h' | h'
      · simp only [redistStep] at h'
        split at h'
        · exact Or.inl h'
        · rcases Bucket.mem_insert_snd _ _ _ _ h' with h'' | h''
          · exact Or.inl h''
          · exact Or.inr (h'' ▸ List.mem_cons_self _ _)
      · exact Or.inr (List.mem_cons_of_mem _ h')

theorem redist_fold_forward (origin : Bucket) :
    ∀ (acc : Bucket × Bucket × Bool) (k v : Nat),
      (k, v) ∈ origin →
      (origin.foldl (redistStep hashFn cap dG sbi spid ipid) acc).2.2 = true →
      (dG.getBucketPageId (hashK hashFn k &&& dG.getLocalDepthMask sbi) = spid ∨
        dG.getBucketPageId (hashK hashFn k &&& dG.getLocalDepthMask sbi) = ipid) ∧
      (dG.getBucketPageId (hashK hashFn k &&& dG.getLocalDepthMask sbi) = spid →
        (k, v) ∈ (origin.foldl (redistStep hashFn cap dG sbi spid ipid) acc).1) ∧
      (dG.getBucketPageId (hashK hashFn k &&& dG.getLocalDepthMask sbi) ≠ spid →
        (k, v) ∈ (origin.foldl (redistStep hashFn cap dG sbi spid ipid) acc).2.1) := by
  induction origin with
  | nil => intro acc k v hm; cases hm
  | cons pr rest ih =>
    intro acc k v hm hok
    rw [List.foldl_cons] at hok ⊢
    rcases List.mem_cons.1 hm with heq | hrest
    · -- the pair is consumed by this very step
      have hstepok : (redistStep hashFn cap dG sbi spid ipid acc pr).2.2 = true :=
        redist_fold_ok_mono hashFn cap dG sbi spid ipid rest _ hok
      subst heq
      simp only [redistStep] at hstepok ⊢
      split at hstepok <;> rename_i hbr <;>
        simp only [Bool.and_eq_true, Bool.or_eq_true, beq_iff_eq] at hstepok
      · refine ⟨hstepok.1.2, fun _ => ?_, fun hne => absurd hbr hne⟩
        rw [if_pos hbr]
        exact redist_fold_fst_sup hashFn cap dG sbi spid ipid rest _
          (Bucket.insert_true_mem _ _ _ _ hstepok.2)
      · refine ⟨hstepok.1.2, fun heq => absurd heq hbr, fun _ => ?_⟩
        rw [if_neg hbr]
        exact redist_fold_img_sup hashFn cap dG sbi spid ipid rest _
          (Bucket.insert_true_mem _ _ _ _ hstepok.2)
    · exact ih _ k v hrest hok

end RedistLemmas

/-! ### The four rewiring loops as one composite -/

/-- The four alias-rewiring loops of `SplitInsert` (source lines 229-245)
applied to a directory `dirC`, with `sbi` the split slot (and anchor of
every depth read), `sii` the image slot, and `diff`/`sz` the stride and
directory size. -/
def rewireStages (sbi spid ipid diff sz sii : Nat) (dirC : DirPage) : DirPage :=
  rewire sbi ipid (upFrom diff sz sii)
    (rewire sbi ipid (downFrom diff sii)
      (rewire sbi spid (upFrom diff sz sbi)
        (rewire sbi spid (downFrom diff sbi) dirC)))

section RewireStages

variable (sbi spid ipid diff sz sii : Nat) (dirC : DirPage)

theorem rewireStages_globalDepth :
    (rewireStages sbi spid ipid diff sz sii dirC).globalDepth = dirC.globalDepth := by
  unfold rewireStages
  rw [rewire_globalDepth, rewire_globalDepth, rewire_globalDepth, rewire_globalDepth]

theorem rewireStages_lenB :
    (rewireStages sbi spid ipid diff sz sii dirC).bucketPageIds.length =
      dirC.bucketPageIds.length := by
  unfold rewireStages
  rw [rewire_lenB, rewire_lenB, rewire_lenB, rewire_lenB]

theorem rewireStages_lenL :
    (rewireStages sbi spid ipid diff sz sii dirC).localDepths.length =
      dirC.localDepths.length := by
  unfold rewireStages
  rw [rewire_lenL, rewire_lenL, rewire_lenL, rewire_lenL]

theorem rewireStages_ld_sbi :
    (rewireStages sbi spid ipid diff sz sii dirC).getLocalDepth sbi =
      dirC.getLocalDepth sbi := by
  unfold rewireStages
  rw [rewire_getLocalDepth_anchor, rewire_getLocalDepth_anchor,
    rewire_getLocalDepth_anchor, rewire_getLocalDepth_anchor]

theorem rewireStages_page_sbi (hmodne : sii % diff ≠ sbi % diff)
    (hsbisz : sbi < sz) (hlen : sbi < dirC.bucketPageIds.length)
    (hdiffpos : 0 < diff) :
    (rewireStages sbi spid ipid diff sz sii dirC).getBucketPageId sbi = spid := by
  unfold rewireStages
  rw [rewire_getBucketPageId_notmem _ _ _
      (fun hm => hmodne (upFrom_mod hm).symm),
    rewire_getBucketPageId_notmem _ _ _
      (fun hm => hmodne (downFrom_mod hm).symm)]
  exact rewire_getBucketPageId_mem _ _ _ (mem_upFrom_self hdiffpos hsbisz)
    (by rw [rewire_lenB]; exact hlen)

theorem rewireStages_ld_sii (hmodne : sii % diff ≠ sbi % diff)
    (hsiisz : sii < sz) (hlen : sii < dirC.localDepths.length)
    (hdiffpos : 0 < diff) :
    (rewireStages sbi spid ipid diff sz sii dirC).getLocalDepth sii =
      dirC.getLocalDepth sbi := by
  unfold rewireStages
  rw [rewire_getLocalDepth_mem _ _ _ (mem_upFrom_self hdiffpos hsiisz)
      (by rw [rewire_lenL, rewire_lenL, rewire_lenL]; exact hlen),
    rewire_getLocalDepth_anchor, rewire_getLocalDepth_anchor,
    rewire_getLocalDepth_anchor]

theorem rewireStages_page_sii (hmodne : sii % diff ≠ sbi % diff)
    (hsiisz : sii < sz) (hlen : sii < dirC.bucketPageIds.length)
    (hdiffpos : 0 < diff) :
    (rewireStages sbi spid ipid diff sz sii dirC).getBucketPageId sii = ipid := by
  unfold rewireStages
  exact rewire_getBucketPageId_mem _ _ _ (mem_upFrom_self hdiffpos hsiisz)
    (by rw [rewire_lenB, rewire_lenB, rewire_lenB]; exact hlen)

theorem rewireStages_page_stale {t : Nat} (htdiff : t < diff) (htsbi : t < sbi)
    (htmod : t % diff = sbi % diff) (hmodne : sii % diff ≠ sbi % diff) :
    (rewireStages sbi spid ipid diff sz sii dirC).getBucketPageId t =
      dirC.getBucketPageId t := by
  unfold rewireStages
  rw [rewire_getBucketPageId_notmem _ _ _
      (fun hm => hmodne (htmod ▸ (upFrom_mod hm)).symm),
    rewire_getBucketPageId_notmem _ _ _
      (fun hm => Nat.not_le_of_lt htdiff (downFrom_step_le hm)),
    rewire_getBucketPageId_notmem _ _ _
      (fun hm => Nat.not_le_of_lt htsbi (upFrom_start_le hm)),
    rewire_getBucketPageId_notmem _ _ _
      (fun hm => Nat.not_le_of_lt htdiff (downFrom_step_le hm))]

theorem rewireStages_ld_cases (i : Nat) :
    (rewireStages sbi spid ipid diff sz sii dirC).getLocalDepth i =
      dirC.getLocalDepth i ∨
    (rewireStages sbi spid ipid diff sz sii dirC).getLocalDepth i =
      dirC.getLocalDepth sbi := by
  unfold rewireStages
  have a1 := rewire_getLocalDepth_anchor sbi spid (downFrom diff sbi) dirC
  have a2 := rewire_getLocalDepth_anchor sbi spid (upFrom diff sz sbi)
    (rewire sbi spid (downFrom diff sbi) dirC)
  have a3 := rewire_getLocalDepth_anchor sbi ipid (downFrom diff sii)
    (rewire sbi spid (upFrom diff sz sbi) (rewire sbi spid (downFrom diff sbi) dirC))
  rcases rewire_getLocalDepth_cases sbi ipid (upFrom diff sz sii) _ i with h4 | h4
  · rw [h4]
    rcases rewire_getLocalDepth_cases sbi ipid (downFrom diff sii) _ i with h3 | h3
    · rw [h3]
      rcases rewire_getLocalDepth_cases sbi spid (upFrom diff sz sbi) _ i with h2 | h2
      · rw [h2]
        rcases rewire_getLocalDepth_cases sbi spid (downFrom diff sbi) _ i with h1 | h1
        · left; exact h1
        · right; rw [h1]
      · right; rw [h2, a1]
    · right; rw [h3, a2, a1]
  · right; rw [h4, a3, a2, a1]

theorem rewireStages_page_cases (i : Nat) :
    (rewireStages sbi spid ipid diff sz sii dirC).getBucketPageId i =
      dirC.getBucketPageId i ∨
    (rewireStages sbi spid ipid diff sz sii dirC).getBucketPageId i = spid ∨
    (rewireStages sbi spid ipid diff sz sii dirC).getBucketPageId i = ipid := by
  unfold rewireStages
  rcases rewire_getBucketPageId_cases sbi ipid (upFrom diff sz sii) _ i with h4 | h4
  · rw [h4]
    rcases rewire_getBucketPageId_cases sbi ipid (downFrom diff sii) _ i with h3 | h3
    · rw [h3]
      rcases rewire_getBucketPageId_cases sbi spid (upFrom diff sz sbi) _ i with h2 | h2
      · rw [h2]
        rcases rewire_getBucketPageId_cases sbi spid (downFrom diff sbi) _ i with h1 | h1
        · left; exact h1
        · right; left; exact h1
      · right; left; exact h2
    · right; right; exact h3
  · right; right; exact h4

end RewireStages

theorem dirAfterSplit_unfold (hashFn : Nat → Nat) (d : DirPage) (k ipid : Nat)
    (sbi spid sii diff sz : Nat) (dirA dirB dirC : DirPage)
    (h1 : sbi = keyToDirectoryIndex hashFn k d)
    (h2 : dirA = if d.getLocalDepth sbi = d.globalDepth then d.incrGlobalDepth else d)
    (h3 : dirB = dirA.incrLocalDepth sbi)
    (h4 : spid = keyToPageId hashFn k dirB)
    (h5 : sii = dirB.getSplitImageIndex sbi)
    (h6 : dirC = (dirB.setLocalDepth sii (dirB.getLocalDepth sbi)).setBucketPageId sii ipid)
    (h7 : diff = 2 ^ dirC.getLocalDepth sbi)
    (h8 : sz = dirC.size) :
    dirAfterSplit hashFn d k ipid = rewireStages sbi spid ipid diff sz sii dirC := by
  subst h8
  subst h7
  subst h6
  subst h5
  subst h4
  subst h3
  subst h2
  subst h1
  rfl

theorem splitPageId_unfold (hashFn : Nat → Nat) (d : DirPage) (k : Nat) :
    splitPageId hashFn d k =
      keyToPageId hashFn k
        ((if d.getLocalDepth (keyToDirectoryIndex hashFn k d) = d.globalDepth
          then d.incrGlobalDepth else d).incrLocalDepth
          (keyToDirectoryIndex hashFn k d)) := rfl

/-- Central analysis of the directory after the split of the slot routed
for `k`: lengths, depths and page ids of the split slot, the image slot,
the re-routed slot, the redistribution target slot, and preservation bounds
for all live slots, in both the doubling and the non-doubling case. -/
theorem dirAfterSplit_main (hashFn : Nat → Nat) (d : DirPage) (k ipid : Nat)
    (hlB : d.bucketPageIds.length = DIRECTORY_ARRAY_SIZE)
    (hlL : d.localDepths.length = DIRECTORY_ARRAY_SIZE)
    (hgd : d.globalDepth ≤ MAX_BUCKET_DEPTH)
    (hldAll : ∀ i < d.size, d.getLocalDepth i ≤ d.globalDepth)
    (hL0 : d.getLocalDepth (keyToDirectoryIndex hashFn k d) < MAX_BUCKET_DEPTH) :
    (dirAfterSplit hashFn d k ipid).globalDepth =
      (if d.getLocalDepth (keyToDirectoryIndex hashFn k d) = d.globalDepth
       then d.globalDepth + 1 else d.globalDepth) ∧
    (dirAfterSplit hashFn d k ipid).bucketPageIds.length = DIRECTORY_ARRAY_SIZE ∧
    (dirAfterSplit hashFn d k ipid).localDepths.length = DIRECTORY_ARRAY_SIZE ∧
    splitPageId hashFn d k = d.getBucketPageId (keyToDirectoryIndex hashFn k d) ∧
    (dirAfterSplit hashFn d k ipid).getLocalDepth (keyToDirectoryIndex hashFn k d) =
      d.getLocalDepth (keyToDirectoryIndex hashFn k d) + 1 ∧
    (dirAfterSplit hashFn d k ipid).getBucketPageId (keyToDirectoryIndex hashFn k d) =
      d.getBucketPageId (keyToDirectoryIndex hashFn k d) ∧
    (dirAfterSplit hashFn d k ipid).getLocalDepth
        (hashK hashFn k % 2 ^ (dirAfterSplit hashFn d k ipid).globalDepth) =
      d.getLocalDepth (keyToDirectoryIndex hashFn k d) + 1 ∧
    ((dirAfterSplit hashFn d k ipid).getBucketPageId
        (hashK hashFn k % 2 ^ (dirAfterSplit hashFn d k ipid).globalDepth) =
        d.getBucketPageId (keyToDirectoryIndex hashFn k d) ∨
     (dirAfterSplit hashFn d k ipid).getBucketPageId
        (hashK hashFn k % 2 ^ (dirAfterSplit hashFn d k ipid).globalDepth) = ipid) ∧
    (d.getLocalDepth (keyToDirectoryIndex hashFn k d) = d.globalDepth →
      hashK hashFn k % 2 ^ (d.getLocalDepth (keyToDirectoryIndex hashFn k d) + 1) =
        hashK hashFn k % 2 ^ (dirAfterSplit hashFn d k ipid).globalDepth) ∧
    (d.getLocalDepth (keyToDirectoryIndex hashFn k d) ≠ d.globalDepth →
      (dirAfterSplit hashFn d k ipid).getBucketPageId
          (hashK hashFn k % 2 ^ (dirAfterSplit hashFn d k ipid).globalDepth) =
        d.getBucketPageId (keyToDirectoryIndex hashFn k d) ∧
      ((dirAfterSplit hashFn d k ipid).getBucketPageId
          (hashK hashFn k %
            2 ^ (d.getLocalDepth (keyToDirectoryIndex hashFn k d) + 1)) =
          d.getBucketPageId (keyToDirectoryIndex hashFn k d) ∨
       ((dirAfterSplit hashFn d k ipid).getBucketPageId
          (hashK hashFn k %
            2 ^ (d.getLocalDepth (keyToDirectoryIndex hashFn k d) + 1)) =
          d.getBucketPageId
            (hashK hashFn k %
              2 ^ (d.getLocalDepth (keyToDirectoryIndex hashFn k d) + 1)) ∧
        hashK hashFn k % 2 ^ (d.getLocalDepth (keyToDirectoryIndex hashFn k d) + 1) <
          d.size))) ∧
    (∀ i < 2 ^ (dirAfterSplit hashFn d k ipid).globalDepth,
      (dirAfterSplit hashFn d k ipid).getLocalDepth i ≤
        (dirAfterSplit hashFn d k ipid).globalDepth) ∧
    (∀ i < 2 ^ (dirAfterSplit hashFn d k ipid).globalDepth,
      (dirAfterSplit hashFn d k ipid).getBucketPageId i = ipid ∨
      ∃ j, j < d.size ∧
        (dirAfterSplit hashFn d k ipid).getBucketPageId i = d.getBucketPageId j) := by
  rw [splitPageId_unfold hashFn d k]
  set hK := hashK hashFn k with hKdef
  set gd := d.globalDepth with hgddef
  set sbi := keyToDirectoryIndex hashFn k d with hsbidef
  set L0 := d.getLocalDepth sbi with hL0def
  set dirA := if L0 = gd then d.incrGlobalDepth else d with hdirA
  set dirB := dirA.incrLocalDepth sbi with hdirB
  set spid := keyToPageId hashFn k dirB with hspid
  set sii := dirB.getSplitImageIndex sbi with hsii
  set dirC := (dirB.setLocalDepth sii (dirB.getLocalDepth sbi)).setBucketPageId sii ipid
    with hdirC
  set diff := 2 ^ dirC.getLocalDepth sbi with hdiff
  set sz := dirC.size with hsz
  have hGu : dirAfterSplit hashFn d k ipid = rewireStages sbi spid ipid diff sz sii dirC :=
    dirAfterSplit_unfold hashFn d k ipid sbi spid sii diff sz dirA dirB dirC
      hsbidef hdirA hdirB hspid hsii hdirC hdiff hsz
  rw [hGu]
  set G := rewireStages sbi spid ipid diff sz sii dirC with hGdef
  have hdsize : d.size = 2 ^ gd := rfl
  have hsbi_mod : sbi = hK % 2 ^ gd := keyToDirectoryIndex_eq_mod hashFn k d
  have hsbi_lt : sbi < 2 ^ gd := by
    rw [hsbi_mod]
    exact Nat.mod_lt _ (Nat.two_pow_pos _)
  have h512 : (2 : Nat) ^ gd ≤ DIRECTORY_ARRAY_SIZE := two_pow_le_dir_size hgd
  have hsbi512 : sbi < DIRECTORY_ARRAY_SIZE := Nat.lt_of_lt_of_le hsbi_lt h512
  have hld : L0 ≤ gd := hldAll sbi (hdsize ▸ hsbi_lt)
  -- facts about dirA, split by whether the directory doubles
  by_cases hdc : L0 = gd
  · -- doubling case
    rw [if_pos hdc] at hdirA
    have hL0gd : L0 + 1 ≤ MAX_BUCKET_DEPTH := hL0
    have hgd1 : gd + 1 ≤ MAX_BUCKET_DEPTH := by omega
    have h512b : (2 : Nat) ^ (gd + 1) ≤ DIRECTORY_ARRAY_SIZE := two_pow_le_dir_size hgd1
    have hAg : dirA.globalDepth = gd + 1 := by rw [hdirA]; rfl
    have hAlenB : dirA.bucketPageIds.length = DIRECTORY_ARRAY_SIZE := by
      rw [hdirA]; exact DirPage.lenB_incrGlobalDepth d
    have hAlenL : dirA.localDepths.length = DIRECTORY_ARRAY_SIZE := by
      rw [hdirA]; exact DirPage.lenL_incrGlobalDepth d
    have hAld_sbi : dirA.getLocalDepth sbi = L0 := by
      rw [hdirA]
      exact DirPage.getLocalDepth_incrGlobalDepth_low d (hdsize ▸ hsbi_lt) hsbi512
    have hApage_sbi : dirA.getBucketPageId sbi = d.getBucketPageId sbi := by
      rw [hdirA]
      exact DirPage.getBucketPageId_incrGlobalDepth_low d (hdsize ▸ hsbi_lt) hsbi512
    have hApage_mirror : dirA.getBucketPageId (sbi + 2 ^ gd) = d.getBucketPageId sbi := by
      rw [hdirA]
      rw [DirPage.getBucketPageId_incrGlobalDepth_high d
        (by rw [hdsize]; omega)
        (by rw [hdsize]; omega)
        (by
          have : sbi + 2 ^ gd < 2 ^ (gd + 1) := by
            have := hsbi_lt
            rw [Nat.pow_succ]
            omega
          exact Nat.lt_of_lt_of_le this h512b)]
      rw [hdsize, Nat.add_sub_cancel]
    -- dirB
    have hBg : dirB.globalDepth = gd + 1 := by
      rw [hdirB, DirPage.globalDepth_incrLocalDepth, hAg]
    have hBlenB : dirB.bucketPageIds.length = DIRECTORY_ARRAY_SIZE := by
      rw [hdirB, DirPage.lenB_incrLocalDepth, hAlenB]
    have hBlenL : dirB.localDepths.length = DIRECTORY_ARRAY_SIZE := by
      rw [hdirB, DirPage.lenL_incrLocalDepth, hAlenL]
    have hBld_sbi : dirB.getLocalDepth sbi = L0 + 1 := by
      rw [hdirB, DirPage.getLocalDepth_incrLocalDepth_self _
        (by rw [hAlenL]; exact hsbi512), hAld_sbi]
    have hBpage : ∀ j, dirB.getBucketPageId j = dirA.getBucketPageId j := by
      intro j
      rw [hdirB, DirPage.getBucketPageId_incrLocalDepth]
    -- spid
    have hspid_eq : spid = d.getBucketPageId sbi := by
      rw [hspid, keyToPageId_eq, hBg]
      rcases mod_two_pow_succ_or hK gd with hm | hm
      · rw [hm, ← hsbi_mod, hBpage, hApage_sbi]
      · rw [hm, ← hsbi_mod, hBpage, hApage_mirror]
    -- sii
    have hsii_xor : sii = sbi ^^^ 2 ^ L0 := by
      rw [hsii]
      show sbi ^^^ 2 ^ (dirB.getLocalDepth sbi - 1) = sbi ^^^ 2 ^ L0
      rw [hBld_sbi, Nat.add_sub_cancel]
    have hsii_ne : sii ≠ sbi := by rw [hsii_xor]; exact xor_two_pow_ne sbi L0
    have hsii_add : sii = sbi + 2 ^ gd := by
      rw [hsii_xor, xor_two_pow_eq_add (by rw [hdc]; exact hsbi_lt), hdc]
    have hsii_lt : sii < 2 ^ (gd + 1) := by
      rw [hsii_add, Nat.pow_succ]
      have := hsbi_lt
      omega
    have hsii512 : sii < DIRECTORY_ARRAY_SIZE := Nat.lt_of_lt_of_le hsii_lt h512b
    -- dirC
    have hCg : dirC.globalDepth = gd + 1 := by
      rw [hdirC, DirPage.globalDepth_setBucketPageId, DirPage.globalDepth_setLocalDepth, hBg]
    have hClenB : dirC.bucketPageIds.length = DIRECTORY_ARRAY_SIZE := by
      rw [hdirC, DirPage.lenB_setBucketPageId, DirPage.lenB_setLocalDepth, hBlenB]
    have hClenL : dirC.localDepths.length = DIRECTORY_ARRAY_SIZE := by
      rw [hdirC, DirPage.lenL_setBucketPageId, DirPage.lenL_setLocalDepth, hBlenL]
    have hCld_sbi : dirC.getLocalDepth sbi = L0 + 1 := by
      rw [hdirC, DirPage.getLocalDepth_setBucketPageId,
        DirPage.getLocalDepth_setLocalDepth_ne _ _ hsii_ne, hBld_sbi]
    have hCld_sii : dirC.getLocalDepth sii = L0 + 1 := by
      rw [hdirC, DirPage.getLocalDepth_setBucketPageId,
        DirPage.getLocalDepth_setLocalDepth_self _ _ _
          (by rw [hBlenL]; exact hsii512),
        hBld_sbi]
    have hCpage_sii : dirC.getBucketPageId sii = ipid := by
      rw [hdirC]
      exact DirPage.getBucketPageId_setBucketPageId_self _ _ _
        (by rw [DirPage.lenB_setLocalDepth, hBlenB]; exact hsii512)
    have hCpage_ne : ∀ j, j ≠ sii → dirC.getBucketPageId j = dirB.getBucketPageId j := by
      intro j hj
      rw [hdirC, DirPage.getBucketPageId_setBucketPageId_ne _ _ (Ne.symm hj),
        DirPage.getBucketPageId_setLocalDepth]
    have hCld_ne : ∀ j, j ≠ sii → dirC.getLocalDepth j = dirB.getLocalDepth j := by
      intro j hj
      rw [hdirC, DirPage.getLocalDepth_setBucketPageId,
        DirPage.getLocalDepth_setLocalDepth_ne _ _ (Ne.symm hj)]
    -- stride facts
    have hdiff2 : diff = 2 ^ (L0 + 1) := by rw [hdiff, hCld_sbi]
    have hdpos : 0 < diff := by rw [hdiff2]; exact Nat.two_pow_pos _
    have hsz_eq : sz = 2 ^ (gd + 1) := by
      rw [hsz]
      show 2 ^ dirC.globalDepth = 2 ^ (gd + 1)
      rw [hCg]
    have hmodne : sii % diff ≠ sbi % diff := by
      rw [hdiff2, hsii_xor]
      exact xor_two_pow_mod_succ_ne sbi L0
    -- main slot facts
    have hGg : G.globalDepth = gd + 1 := by
      rw [hGdef, rewireStages_globalDepth, hCg]
    have hGlenB : G.bucketPageIds.length = DIRECTORY_ARRAY_SIZE := by
      rw [hGdef, rewireStages_lenB, hClenB]
    have hGlenL : G.localDepths.length = DIRECTORY_ARRAY_SIZE := by
      rw [hGdef, rewireStages_lenL, hClenL]
    have hGld_sbi : G.getLocalDepth sbi = L0 + 1 := by
      rw [hGdef, rewireStages_ld_sbi, hCld_sbi]
    have hGpage_sbi : G.getBucketPageId sbi = d.getBucketPageId sbi := by
      rw [hGdef, rewireStages_page_sbi _ _ _ _ _ _ _ hmodne
        (by rw [hsz_eq]; exact Nat.lt_of_lt_of_le hsbi_lt (by rw [Nat.pow_succ]; omega))
        (by rw [hClenB]; exact hsbi512) hdpos]
      exact hspid_eq
    have hGld_sii : G.getLocalDepth sii = L0 + 1 := by
      rw [hGdef, rewireStages_ld_sii _ _ _ _ _ _ _ hmodne
        (by rw [hsz_eq]; exact hsii_lt)
        (by rw [hClenL]; exact hsii512) hdpos, hCld_sbi]
    have hGpage_sii : G.getBucketPageId sii = ipid := by
      rw [hGdef]
      exact rewireStages_page_sii _ _ _ _ _ _ _ hmodne
        (by rw [hsz_eq]; exact hsii_lt)
        (by rw [hClenB]; exact hsii512) hdpos
    -- assemble
    refine ⟨?_, hGlenB, hGlenL, hspid_eq, hGld_sbi, hGpage_sbi, ?_, ?_, ?_, ?_, ?_, ?_⟩
    · rw [hGg, if_pos hdc]
    · -- routed depth
      rw [hGg]
      rcases mod_two_pow_succ_or hK gd with hm | hm
      · rw [hm, ← hsbi_mod, hGld_sbi]
      · rw [hm, ← hsbi_mod, ← hsii_add, hGld_sii]
    · -- routed page id
      rw [hGg]
      rcases mod_two_pow_succ_or hK gd with hm | hm
      · rw [hm, ← hsbi_mod]
        exact Or.inl hGpage_sbi
      · rw [hm, ← hsbi_mod, ← hsii_add]
        exact Or.inr hGpage_sii
    · -- in the doubling case the target slot is the re-routed slot
      intro _
      have hL1 : L0 + 1 = gd + 1 := by omega
      rw [hL1, hGg]
    · -- the non-doubling clause is vacuous here
      intro hne
      exact absurd hdc hne
    · -- local depths bounded
      intro i hi
      rw [hGg] at hi ⊢
      have hi512 : i < DIRECTORY_ARRAY_SIZE := Nat.lt_of_lt_of_le hi h512b
      have h1 : G.getLocalDepth i = dirC.getLocalDepth i ∨
          G.getLocalDepth i = dirC.getLocalDepth sbi := by
        rw [hGdef]
        exact rewireStages_ld_cases _ _ _ _ _ _ _ i
      rcases h1 with h1 | h1
      · by_cases his : i = sii
        · rw [h1, his, hCld_sii]; omega
        · rw [h1, hCld_ne i his]
          by_cases hisb : i = sbi
          · rw [hisb, hBld_sbi]; omega
          · rw [hdirB, DirPage.getLocalDepth_incrLocalDepth_ne _ (fun hc => hisb hc.symm),
              hdirA, DirPage.getLocalDepth_incrGlobalDepth d hi512]
            rw [Nat.pow_succ] at hi
            split
            · rename_i hcase
              have hsub : i - d.size < d.size := by
                rw [hdsize] at hcase ⊢
                omega
              have := hldAll _ hsub
              omega
            · rename_i hcase
              rw [hdsize] at hcase
              have hlow : i < d.size := by
                rw [hdsize]
                rcases Nat.lt_or_ge i (2 ^ gd) with h | h
                · exact h
                · exact absurd ⟨h, by omega⟩ hcase
              have := hldAll _ hlow
              omega
      · rw [h1, hCld_sbi]; omega
    · -- page ids are the new page or an old live entry
      intro i hi
      rw [hGg] at hi
      have hi512 : i < DIRECTORY_ARRAY_SIZE := Nat.lt_of_lt_of_le hi h512b
      have h1 : G.getBucketPageId i = dirC.getBucketPageId i ∨
          G.getBucketPageId i = spid ∨ G.getBucketPageId i = ipid := by
        rw [hGdef]
        exact rewireStages_page_cases _ _ _ _ _ _ _ i
      rcases h1 with h1 | h1 | h1
      · by_cases his : i = sii
        · rw [h1, his, hCpage_sii]
          exact Or.inl rfl
        · rw [h1, hCpage_ne i his, hBpage, hdirA,
            DirPage.getBucketPageId_incrGlobalDepth d hi512]
          rw [Nat.pow_succ] at hi
          split
          · rename_i hcase
            refine Or.inr ⟨i - d.size, ?_, rfl⟩
            rw [hdsize] at hcase ⊢
            omega
          · rename_i hcase
            refine Or.inr ⟨i, ?_, rfl⟩
            rw [hdsize] at hcase ⊢
            rcases Nat.lt_or_ge i (2 ^ gd) with h | h
            · exact h
            · exact absurd ⟨h, by omega⟩ hcase
      · rw [h1, hspid_eq]
        exact Or.inr ⟨sbi, hdsize ▸ hsbi_lt, rfl⟩
      · exact Or.inl h1
  · -- non-doubling case
    rw [if_neg hdc] at hdirA
    have hlt0 : L0 < gd := Nat.lt_of_le_of_ne hld hdc
    have hAg : dirA.globalDepth = gd := by rw [hdirA]
    have hAlenB : dirA.bucketPageIds.length = DIRECTORY_ARRAY_SIZE := by rw [hdirA]; exact hlB
    have hAlenL : dirA.localDepths.length = DIRECTORY_ARRAY_SIZE := by rw [hdirA]; exact hlL
    have hAld_sbi : dirA.getLocalDepth sbi = L0 := by rw [hdirA]
    have hApage : ∀ j, dirA.getBucketPageId j = d.getBucketPageId j := by
      intro j; rw [hdirA]
    have hAld : ∀ j, dirA.getLocalDepth j = d.getLocalDepth j := by
      intro j; rw [hdirA]
    -- dirB
    have hBg : dirB.globalDepth = gd := by
      rw [hdirB, DirPage.globalDepth_incrLocalDepth, hAg]
    have hBlenB : dirB.bucketPageIds.length = DIRECTORY_ARRAY_SIZE := by
      rw [hdirB, DirPage.lenB_incrLocalDepth, hAlenB]
    have hBlenL : dirB.localDepths.length = DIRECTORY_ARRAY_SIZE := by
      rw [hdirB, DirPage.lenL_incrLocalDepth, hAlenL]
    have hBld_sbi : dirB.getLocalDepth sbi = L0 + 1 := by
      rw [hdirB, DirPage.getLocalDepth_incrLocalDepth_self _
        (by rw [hAlenL]; exact hsbi512), hAld_sbi]
    have hBpage : ∀ j, dirB.getBucketPageId j = d.getBucketPageId j := by
      intro j
      rw [hdirB, DirPage.getBucketPageId_incrLocalDepth, hApage]
    have hBld_ne : ∀ j, j ≠ sbi → dirB.getLocalDepth j = d.getLocalDepth j := by
      intro j hj
      rw [hdirB, DirPage.getLocalDepth_incrLocalDepth_ne _ (fun hc => hj hc.symm), hAld]
    -- spid
    have hspid_eq : spid = d.getBucketPageId sbi := by
      rw [hspid, keyToPageId_eq, hBg, ← hsbi_mod, hBpage]
    -- sii
    have hsii_xor : sii = sbi ^^^ 2 ^ L0 := by
      rw [hsii]
      show sbi ^^^ 2 ^ (dirB.getLocalDepth sbi - 1) = sbi ^^^ 2 ^ L0
      rw [hBld_sbi, Nat.add_sub_cancel]
    have hsii_ne : sii ≠ sbi := by rw [hsii_xor]; exact xor_two_pow_ne sbi L0
    have hsii_lt : sii < 2 ^ gd := by
      rw [hsii_xor]
      exact Nat.xor_lt_two_pow hsbi_lt (Nat.pow_lt_pow_of_lt (by omega) hlt0)
    have hsii512 : sii < DIRECTORY_ARRAY_SIZE := Nat.lt_of_lt_of_le hsii_lt h512
    -- dirC
    have hCg : dirC.globalDepth = gd := by
      rw [hdirC, DirPage.globalDepth_setBucketPageId, DirPage.globalDepth_setLocalDepth, hBg]
    have hClenB : dirC.bucketPageIds.length = DIRECTORY_ARRAY_SIZE := by
      rw [hdirC, DirPage.lenB_setBucketPageId, DirPage.lenB_setLocalDepth, hBlenB]
    have hClenL : dirC.localDepths.length = DIRECTORY_ARRAY_SIZE := by
      rw [hdirC, DirPage.lenL_setBucketPageId, DirPage.lenL_setLocalDepth, hBlenL]
    have hCld_sbi : dirC.getLocalDepth sbi = L0 + 1 := by
      rw [hdirC, DirPage.getLocalDepth_setBucketPageId,
        DirPage.getLocalDepth_setLocalDepth_ne _ _ hsii_ne, hBld_sbi]
    have hCld_sii : dirC.getLocalDepth sii = L0 + 1 := by
      rw [hdirC, DirPage.getLocalDepth_setBucketPageId,
        DirPage.getLocalDepth_setLocalDepth_self _ _ _
          (by rw [hBlenL]; exact hsii512),
        hBld_sbi]
    have hCpage_sii : dirC.getBucketPageId sii = ipid := by
      rw [hdirC]
      exact DirPage.getBucketPageId_setBucketPageId_self _ _ _
        (by rw [DirPage.lenB_setLocalDepth, hBlenB]; exact hsii512)
    have hCpage_ne : ∀ j, j ≠ sii → dirC.getBucketPageId j = d.getBucketPageId j := by
      intro j hj
      rw [hdirC, DirPage.getBucketPageId_setBucketPageId_ne _ _ (Ne.symm hj),
        DirPage.getBucketPageId_setLocalDepth, hBpage]
    have hCld_ne : ∀ j, j ≠ sii → dirC.getLocalDepth j = dirB.getLocalDepth j := by
      intro j hj
      rw [hdirC, DirPage.getLocalDepth_setBucketPageId,
        DirPage.getLocalDepth_setLocalDepth_ne _ _ (Ne.symm hj)]
    -- stride facts
    have hdiff2 : diff = 2 ^ (L0 + 1) := by rw [hdiff, hCld_sbi]
    have hdpos : 0 < diff := by rw [hdiff2]; exact Nat.two_pow_pos _
    have hsz_eq : sz = 2 ^ gd := by
      rw [hsz]
      show 2 ^ dirC.globalDepth = 2 ^ gd
      rw [hCg]
    have hmodne : sii % diff ≠ sbi % diff := by
      rw [hdiff2, hsii_xor]
      exact xor_two_pow_mod_succ_ne sbi L0
    -- main slot facts
    have hGg : G.globalDepth = gd := by
      rw [hGdef, rewireStages_globalDepth, hCg]
    have hGlenB : G.bucketPageIds.length = DIRECTORY_ARRAY_SIZE := by
      rw [hGdef, rewireStages_lenB, hClenB]
    have hGlenL : G.localDepths.length = DIRECTORY_ARRAY_SIZE := by
      rw [hGdef, rewireStages_lenL, hClenL]
    have hGld_sbi : G.getLocalDepth sbi = L0 + 1 := by
      rw [hGdef, rewireStages_ld_sbi, hCld_sbi]
    have hGpage_sbi : G.getBucketPageId sbi = d.getBucketPageId sbi := by
      rw [hGdef, rewireStages_page_sbi _ _ _ _ _ _ _ hmodne
        (by rw [hsz_eq]; exact hsbi_lt)
        (by rw [hClenB]; exact hsbi512) hdpos]
      exact hspid_eq
    -- the redistribution target for k
    have hL1le : L0 + 1 ≤ gd := hlt0
    have htmod : hK % 2 ^ (L0 + 1) = sbi % 2 ^ (L0 + 1) := by
      rw [hsbi_mod]
      rw [Nat.mod_mod_of_dvd hK (Nat.pow_dvd_pow 2 hL1le)]
    -- assemble
    refine ⟨?_, hGlenB, hGlenL, hspid_eq, hGld_sbi, hGpage_sbi, ?_, ?_, ?_, ?_, ?_, ?_⟩
    · rw [hGg, if_neg hdc]
    · rw [hGg, ← hsbi_mod, hGld_sbi]
    · rw [hGg, ← hsbi_mod]
      exact Or.inl hGpage_sbi
    · -- the doubling clause is vacuous here
      intro heq
      exact absurd heq hdc
    · -- non-doubling: re-routed slot and target slot analysis
      intro _
      refine ⟨by rw [hGg, ← hsbi_mod]; exact hGpage_sbi, ?_⟩
      by_cases hteq : hK % 2 ^ (L0 + 1) = sbi
      · rw [hteq]
        exact Or.inl hGpage_sbi
      · right
        have htlt : hK % 2 ^ (L0 + 1) < 2 ^ (L0 + 1) :=
          Nat.mod_lt _ (Nat.two_pow_pos _)
        have htlt_sbi : hK % 2 ^ (L0 + 1) < sbi := by
          have hle : hK % 2 ^ (L0 + 1) ≤ sbi := by
            rw [htmod]
            exact Nat.mod_le _ _
          omega
        have htmod_diff : (hK % 2 ^ (L0 + 1)) % diff = sbi % diff := by
          rw [hdiff2, Nat.mod_mod_of_dvd _ (dvd_refl _), htmod]
        have hstale : G.getBucketPageId (hK % 2 ^ (L0 + 1)) =
            dirC.getBucketPageId (hK % 2 ^ (L0 + 1)) := by
          rw [hGdef]
          exact rewireStages_page_stale _ _ _ _ _ _ _
            (hdiff2 ▸ htlt) htlt_sbi htmod_diff hmodne
        have htne_sii : hK % 2 ^ (L0 + 1) ≠ sii := by
          intro hc
          apply hmodne
          rw [← hc, htmod_diff]
        constructor
        · rw [hstale, hCpage_ne _ htne_sii]
        · rw [hdsize]
          exact Nat.lt_of_lt_of_le htlt (Nat.pow_le_pow_right (by omega) hL1le)
    · -- local depths bounded
      intro i hi
      rw [hGg] at hi ⊢
      have h1 : G.getLocalDepth i = dirC.getLocalDepth i ∨
          G.getLocalDepth i = dirC.getLocalDepth sbi := by
        rw [hGdef]
        exact rewireStages_ld_cases _ _ _ _ _ _ _ i
      rcases h1 with h1 | h1
      · by_cases his : i = sii
        · rw [h1, his, hCld_sii]; omega
        · rw [h1, hCld_ne i his]
          by_cases hisb : i = sbi
          · rw [hisb, hBld_sbi]; omega
          · rw [hBld_ne i hisb]
            exact hldAll i (hdsize ▸ hi)
      · rw [h1, hCld_sbi]; omega
    · -- page ids
      intro i hi
      rw [hGg] at hi
      have h1 : G.getBucketPageId i = dirC.getBucketPageId i ∨
          G.getBucketPageId i = spid ∨ G.getBucketPageId i = ipid := by
        rw [hGdef]
        exact rewireStages_page_cases _ _ _ _ _ _ _ i
      rcases h1 with h1 | h1 | h1
      · by_cases his : i = sii
        · rw [h1, his, hCpage_sii]
          exact Or.inl rfl
        · rw [h1, hCpage_ne i his]
          exact Or.inr ⟨i, hdsize ▸ hi, rfl⟩
      · rw [h1, hspid_eq]
        exact Or.inr ⟨sbi, hdsize ▸ hsbi_lt, rfl⟩
      · exact Or.inl h1

theorem fetchDirectoryPage_init {st : TableState} (h : st.dirInit = true) :
    fetchDirectoryPage st = (st, [.fetch st.dirPageId]) := by
  unfold fetchDirectoryPage
  rw [if_pos h]

theorem splitStep_maxed (hashFn : Nat → Nat) (cap : Nat) (st : TableState) (k : Nat)
    (hInit : st.dirInit = true)
    (hge : MAX_BUCKET_DEPTH ≤ routedDepth hashFn st k) :
    splitStep hashFn cap st k =
      ⟨false, st, [.fetch st.dirPageId, .unpin st.dirPageId false], true⟩ := by
  have hge' : MAX_BUCKET_DEPTH ≤
      st.dir.getLocalDepth (keyToDirectoryIndex hashFn k st.dir) := hge
  simp only [splitStep, fetchDirectoryPage_init hInit]
  rw [if_pos hge']
  rfl

theorem splitStep_retry_eq (hashFn : Nat → Nat) (cap : Nat) (st : TableState) (k : Nat)
    (hInit : st.dirInit = true)
    (hlt : routedDepth hashFn st k < MAX_BUCKET_DEPTH) :
    splitStep hashFn cap st k =
      ⟨true,
       ⟨st.dirInit, st.dirPageId, dirAfterSplit hashFn st.dir k st.pages.length,
        ((st.pages ++ [[]]).set (splitPageId hashFn st.dir k)
            (redistribute hashFn cap (dirAfterSplit hashFn st.dir k st.pages.length)
              (keyToDirectoryIndex hashFn k st.dir) (splitPageId hashFn st.dir k)
              st.pages.length (st.pages.getD (splitPageId hashFn st.dir k) [])).1).set
          st.pages.length
          (redistribute hashFn cap (dirAfterSplit hashFn st.dir k st.pages.length)
            (keyToDirectoryIndex hashFn k st.dir) (splitPageId hashFn st.dir k)
            st.pages.length (st.pages.getD (splitPageId hashFn st.dir k) [])).2.1⟩,
       [.fetch st.dirPageId, .fetch (splitPageId hashFn st.dir k),
        .newpage st.pages.length, .unpin (splitPageId hashFn st.dir k) true,
        .unpin st.pages.length true, .unpin st.dirPageId true],
       (redistribute hashFn cap (dirAfterSplit hashFn st.dir k st.pages.length)
         (keyToDirectoryIndex hashFn k st.dir) (splitPageId hashFn st.dir k)
         st.pages.length (st.pages.getD (splitPageId hashFn st.dir k) [])).2.2⟩ := by
  have hlt' : ¬ MAX_BUCKET_DEPTH ≤
      st.dir.getLocalDepth (keyToDirectoryIndex hashFn k st.dir) :=
    Nat.not_le_of_lt hlt
  simp only [splitStep, fetchDirectoryPage_init hInit]
  rw [if_neg hlt']
  rfl

/-- Everything the recursion analysis needs about one successful split
round of `SplitInsert` on a well-formed state. -/
theorem splitStep_spec (hashFn : Nat → Nat) (cap : Nat) (st : TableState) (k : Nat)
    (hInv : Inv st) (hlt : routedDepth hashFn st k < MAX_BUCKET_DEPTH) :
    (splitStep hashFn cap st k).retry = true ∧
    (splitStep hashFn cap st k).st.dirPageId = st.dirPageId ∧
    (splitStep hashFn cap st k).evs =
      [.fetch st.dirPageId, .fetch (splitPageId hashFn st.dir k),
       .newpage st.pages.length, .unpin (splitPageId hashFn st.dir k) true,
       .unpin st.pages.length true, .unpin st.dirPageId true] ∧
    Inv (splitStep hashFn cap st k).st ∧
    routedDepth hashFn (splitStep hashFn cap st k).st k =
      routedDepth hashFn st k + 1 ∧
    (∀ v, storedAt hashFn (splitStep hashFn cap st k).st k v →
      storedAt hashFn st k v) ∧
    (∀ v, storedAt hashFn st k v → (splitStep hashFn cap st k).ok = true →
      storedAt hashFn (splitStep hashFn cap st k).st k v) := by
  obtain ⟨hInit, hlB, hlL, hgd, hdp, hldAll, hfr, hnd⟩ := hInv
  have hlt' : st.dir.getLocalDepth (keyToDirectoryIndex hashFn k st.dir) <
      MAX_BUCKET_DEPTH := hlt
  obtain ⟨hg, hlenB, hlenL, hspid, hldsbi, hpgsbi, hldrouted, hpgrouted,
    htarg_dbl, htarg_nd, hldle, hpglive⟩ :=
    dirAfterSplit_main hashFn st.dir k st.pages.length hlB hlL hgd hldAll hlt'
  rw [splitStep_retry_eq hashFn cap st k hInit hlt]
  set hK := hashK hashFn k with hKdef
  set sbi := keyToDirectoryIndex hashFn k st.dir with hsbidef
  set spid := splitPageId hashFn st.dir k with hspiddef
  set ipid := st.pages.length with hipiddef
  set dG := dirAfterSplit hashFn st.dir k ipid with hdGdef
  set origin := st.pages.getD spid [] with horigindef
  set redis := redistribute hashFn cap dG sbi spid ipid origin with hredisdef
  set pages2 := ((st.pages ++ [[]]).set spid redis.1).set ipid redis.2.1 with hpages2def
  have hsbi_lt : sbi < 2 ^ st.dir.globalDepth := by
    rw [hsbidef, keyToDirectoryIndex_eq_mod]
    exact Nat.mod_lt _ (Nat.two_pow_pos _)
  have hspid_lt : spid < ipid := by
    rw [hspid]
    exact hfr sbi hsbi_lt
  have hspid_ne : spid ≠ ipid := Nat.ne_of_lt hspid_lt
  have hlen2 : pages2.length = st.pages.length + 1 := by
    rw [hpages2def]
    simp [List.length_set, List.length_append]
  have hget_spid : pages2.getD spid [] = redis.1 := by
    rw [hpages2def, getD_set_ne _ _ _ (Ne.symm hspid_ne),
      getD_set_self _ _ _ _ (by simp [List.length_set, List.length_append]; omega)]
  have hget_ipid : pages2.getD ipid [] = redis.2.1 := by
    rw [hpages2def, getD_set_self _ _ _ _ (by simp [List.length_set, List.length_append])]
  have hroutedPage_st : keyToPageId hashFn k st.dir = spid := by
    rw [keyToPageId_eq, ← keyToDirectoryIndex_eq_mod]
    exact hspid.symm
  have hfold := redist_fold_forward hashFn cap dG sbi spid ipid origin ([], [], true) k
  have hback := fun (q : Nat × Nat) =>
    redist_fold_backward hashFn cap dG sbi spid ipid origin ([], [], true)
      (q := q)
  have hmask : hK &&& dG.getLocalDepthMask sbi =
      hK % 2 ^ (st.dir.getLocalDepth sbi + 1) := by
    show hK &&& (2 ^ dG.getLocalDepth sbi - 1) = _
    rw [hldsbi]
    exact Nat.and_pow_two_sub_one_eq_mod _ _
  refine ⟨rfl, rfl, rfl, ?_, ?_, ?_, ?_⟩
  · -- invariant preservation
    refine ⟨hInit, hlenB, hlenL, ?_, ?_, ?_, ?_, ?_⟩
    · rw [hg]
      split
      · rename_i hcase
        have : st.dir.getLocalDepth sbi < MAX_BUCKET_DEPTH := hlt'
        omega
      · exact hgd
    · show st.dirPageId < pages2.length
      rw [hlen2]; omega
    · intro i hi
      exact hldle i hi
    · intro i hi
      show dG.getBucketPageId i < pages2.length
      rcases hpglive i hi with hcase | ⟨j, hj, hcase⟩
      · rw [hcase, hlen2]; omega
      · rw [hcase, hlen2]
        have := hfr j hj
        omega
    · intro i hi
      show dG.getBucketPageId i ≠ st.dirPageId
      rcases hpglive i hi with hcase | ⟨j, hj, hcase⟩
      · rw [hcase]
        omega
      · rw [hcase]
        exact hnd j hj
  · -- routed local depth increases by one
    show dG.getLocalDepth (keyToDirectoryIndex hashFn k dG) =
      st.dir.getLocalDepth sbi + 1
    rw [keyToDirectoryIndex_eq_mod]
    exact hldrouted
  · -- stored pairs come from the split bucket
    intro v hv
    have hv' : (k, v) ∈ pages2.getD (dG.getBucketPageId (hK % 2 ^ dG.globalDepth)) [] := by
      have : keyToPageId hashFn k dG = dG.getBucketPageId (hK % 2 ^ dG.globalDepth) := by
        rw [keyToPageId_eq]
      rw [← this]
      exact hv
    have hmemorigin : (k, v) ∈ origin := by
      rcases hpgrouted with hc | hc
      · rw [hc, ← hspid, hget_spid] at hv'
        rcases (hback (k, v)).1 hv' with hin | hin
        · cases hin
        · exact hin
      · rw [hc, hget_ipid] at hv'
        rcases (hback (k, v)).2 hv' with hin | hin
        · cases hin
        · exact hin
    show (k, v) ∈ st.pages.getD (keyToPageId hashFn k st.dir) []
    rw [hroutedPage_st]
    exact hmemorigin
  · -- a stored pair stays reachable when every assert held
    intro v hst hok
    have hmemorigin : (k, v) ∈ origin := by
      have := hst
      show (k, v) ∈ origin
      have hx : (k, v) ∈ st.pages.getD (keyToPageId hashFn k st.dir) [] := hst
      rw [hroutedPage_st] at hx
      exact hx
    have hok' : (origin.foldl (redistStep hashFn cap dG sbi spid ipid) ([], [], true)).2.2
        = true := hok
    obtain ⟨hassert, hmemsp, hmemip⟩ := hfold v hmemorigin hok'
    rw [hmask] at hassert hmemsp hmemip
    show (k, v) ∈ pages2.getD (keyToPageId hashFn k dG) []
    have hkey : keyToPageId hashFn k dG = dG.getBucketPageId (hK % 2 ^ dG.globalDepth) := by
      rw [keyToPageId_eq]
    rw [hkey]
    by_cases hdc : st.dir.getLocalDepth sbi = st.dir.globalDepth
    · -- doubling: the target slot is the re-routed slot
      have heq := htarg_dbl hdc
      rw [heq] at hassert hmemsp hmemip
      by_cases hPs : dG.getBucketPageId (hK % 2 ^ dG.globalDepth) = spid
      · rw [hPs, hget_spid]
        exact hmemsp hPs
      · have hPi : dG.getBucketPageId (hK % 2 ^ dG.globalDepth) = ipid :=
          hassert.resolve_left hPs
        rw [hPi, hget_ipid]
        exact hmemip hPs
    · -- no doubling: re-routed slot holds the split page
      obtain ⟨hrout, htarg⟩ := htarg_nd hdc
      have htargspid : dG.getBucketPageId (hK % 2 ^ (st.dir.getLocalDepth sbi + 1)) =
          spid := by
        rcases htarg with htz | ⟨htz, htlt⟩
        · rw [htz, hspid]
        · have hne_ip : dG.getBucketPageId (hK % 2 ^ (st.dir.getLocalDepth sbi + 1)) ≠
              ipid := by
            rw [htz]
            exact Nat.ne_of_lt (hfr _ htlt)
          exact hassert.resolve_right hne_ip
      rw [hrout, ← hspid, hget_spid]
      exact hmemsp htargspid

end ExtHash
namespace ExtHash

/-- The state `FetchDirectoryPage` leaves behind on first use (lazy
directory creation, source lines 69-93). -/
def initSt (st : TableState) : TableState :=
  ⟨true, st.pages.length,
   ⟨0, (List.replicate DIRECTORY_ARRAY_SIZE 0).set 0 (st.pages.length + 1),
    List.replicate DIRECTORY_ARRAY_SIZE 0⟩, st.pages ++ [[], []]⟩

/-- The buffer-pool events of the lazy directory creation. -/
def initEvs (st : TableState) : List Ev :=
  [.newpage st.pages.length, .newpage (st.pages.length + 1),
   .unpin st.pages.length true, .unpin (st.pages.length + 1) true,
   .fetch st.pages.length]

theorem fetchDirectoryPage_uninit {st : TableState} (h : st.dirInit = false) :
    fetchDirectoryPage st = (initSt st, initEvs st) := by
  unfold fetchDirectoryPage
  rw [h]
  rfl

theorem Inv_initSt (st : TableState) : Inv (initSt st) := by
  have hB0 : (initSt st).dir.getBucketPageId 0 = st.pages.length + 1 := by
    show ((List.replicate DIRECTORY_ARRAY_SIZE 0).set 0 (st.pages.length + 1)).getD 0 0 = _
    exact getD_set_self _ _ _ _ (by rw [List.length_replicate]; decide)
  have hsz : (initSt st).dir.size = 1 := rfl
  have hplen : (initSt st).pages.length = st.pages.length + 2 := by
    show (st.pages ++ [[], []]).length = st.pages.length + 2
    rw [List.length_append]
    rfl
  have hrep : ∀ i, (List.replicate DIRECTORY_ARRAY_SIZE (0 : Nat)).getD i 0 = 0 := by
    intro i
    rw [List.getD_eq_getElem?_getD, List.getElem?_replicate]
    split <;> rfl
  refine ⟨rfl, by simp only [initSt, List.length_set, List.length_replicate],
    by simp only [initSt, List.length_replicate], Nat.zero_le _, ?_, ?_, ?_, ?_⟩
  · show st.pages.length < (initSt st).pages.length
    rw [hplen]; omega
  · intro i hi
    rw [hsz] at hi
    interval_cases i
    show (List.replicate DIRECTORY_ARRAY_SIZE 0).getD 0 0 ≤ 0
    rw [hrep]
  · intro i hi
    rw [hsz] at hi
    interval_cases i
    rw [hB0, hplen]
    omega
  · intro i hi
    rw [hsz] at hi
    interval_cases i
    rw [hB0]
    show st.pages.length + 1 ≠ st.pages.length
    omega

theorem routedIndex_initSt (hashFn : Nat → Nat) (st : TableState) (k : Nat) :
    routedIndex hashFn (initSt st) k = 0 := by
  unfold routedIndex
  rw [keyToDirectoryIndex_eq_mod]
  show hashK hashFn k % 2 ^ 0 = 0
  rw [pow_zero, Nat.mod_one]

theorem routedDepth_initSt (hashFn : Nat → Nat) (st : TableState) (k : Nat) :
    routedDepth hashFn (initSt st) k = 0 := by
  unfold routedDepth
  rw [routedIndex_initSt]
  show (List.replicate DIRECTORY_ARRAY_SIZE 0).getD 0 0 = 0
  rw [List.getD_eq_getElem?_getD, List.getElem?_replicate]
  split <;> rfl

theorem routedDepth_le_max (hashFn : Nat → Nat) {st : TableState} (k : Nat)
    (hInv : Inv st) : routedDepth hashFn st k ≤ MAX_BUCKET_DEPTH := by
  obtain ⟨_, _, _, hgd, _, hldAll, _, _⟩ := hInv
  have hidx : routedIndex hashFn st k < st.dir.size := by
    unfold routedIndex
    rw [keyToDirectoryIndex_eq_mod]
    exact Nat.mod_lt _ (Nat.two_pow_pos _)
  exact le_trans (hldAll _ hidx) hgd

theorem insertT_zero (hashFn : Nat → Nat) (cap : Nat) (st : TableState) (k v : Nat) :
    insertT hashFn cap 0 st k v = none := rfl

theorem insertT_succ (hashFn : Nat → Nat) (cap : Nat) (f : Nat) (st : TableState)
    (k v : Nat) :
    insertT hashFn cap (f + 1) st k v =
      insertGo hashFn cap (fun st' => insertT hashFn cap f st' k v)
        (fetchDirectoryPage st).1 (fetchDirectoryPage st).2 k v := rfl

theorem insertGo_fast (hashFn : Nat → Nat) (cap : Nat)
    (recurse : TableState → Option (OpRes Bool)) (st1 : TableState) (ev1 : List Ev)
    (k v : Nat)
    (hnf : Bucket.isFull cap (routedBucket hashFn st1 k) = false) :
    insertGo hashFn cap recurse st1 ev1 k v =
      some ⟨(Bucket.insert cap (routedBucket hashFn st1 k) k v).1,
            ⟨st1.dirInit, st1.dirPageId, st1.dir,
             st1.pages.set (routedPageId hashFn st1 k)
               (Bucket.insert cap (routedBucket hashFn st1 k) k v).2⟩,
            ev1 ++ [.fetch (routedPageId hashFn st1 k),
                    .unpin (routedPageId hashFn st1 k) true,
                    .unpin st1.dirPageId false], true⟩ := by
  have hnf' : Bucket.isFull cap (st1.pages.getD (keyToPageId hashFn k st1.dir) []) =
      false := hnf
  simp only [insertGo, hnf', Bool.not_false, if_true]
  rfl

theorem insertGo_full_noretry (hashFn : Nat → Nat) (cap : Nat)
    (recurse : TableState → Option (OpRes Bool)) (st1 : TableState) (ev1 : List Ev)
    (k v : Nat)
    (hf : Bucket.isFull cap (routedBucket hashFn st1 k) = true)
    (hnr : (splitStep hashFn cap st1 k).retry = false) :
    insertGo hashFn cap recurse st1 ev1 k v =
      some ⟨false, (splitStep hashFn cap st1 k).st,
            (ev1 ++ [.fetch (routedPageId hashFn st1 k),
                     .unpin (routedPageId hashFn st1 k) false,
                     .unpin st1.dirPageId false]) ++ (splitStep hashFn cap st1 k).evs,
            (splitStep hashFn cap st1 k).ok⟩ := by
  have hf' : Bucket.isFull cap (st1.pages.getD (keyToPageId hashFn k st1.dir) []) =
      true := hf
  simp only [insertGo, hf', Bool.not_true, Bool.false_eq_true, if_false]
  rw [if_neg (by rw [hnr]; exact Bool.false_ne_true)]
  rfl

theorem insertGo_full_retry (hashFn : Nat → Nat) (cap : Nat)
    (recurse : TableState → Option (OpRes Bool)) (st1 : TableState) (ev1 : List Ev)
    (k v : Nat)
    (hf : Bucket.isFull cap (routedBucket hashFn st1 k) = true)
    (hr : (splitStep hashFn cap st1 k).retry = true) :
    insertGo hashFn cap recurse st1 ev1 k v =
      (match recurse (splitStep hashFn cap st1 k).st with
       | none => none
       | some r => some ⟨r.ret, r.st,
           ((ev1 ++ [.fetch (routedPageId hashFn st1 k),
                     .unpin (routedPageId hashFn st1 k) false,
                     .unpin st1.dirPageId false]) ++ (splitStep hashFn cap st1 k).evs)
             ++ r.evs,
           (splitStep hashFn cap st1 k).ok && r.ok⟩) := by
  have hf' : Bucket.isFull cap (st1.pages.getD (keyToPageId hashFn k st1.dir) []) =
      true := hf
  simp only [insertGo, hf', Bool.not_true, Bool.false_eq_true, if_false]
  rw [if_pos hr]
  rfl

end ExtHash
namespace ExtHash

theorem routedIndex_lt_size (hashFn : Nat → Nat) (st : TableState) (k : Nat) :
    routedIndex hashFn st k < st.dir.size := by
  unfold routedIndex
  rw [keyToDirectoryIndex_eq_mod]
  exact Nat.mod_lt _ (Nat.two_pow_pos _)

theorem routedPageId_lt (hashFn : Nat → Nat) {st : TableState} (k : Nat)
    (hInv : Inv st) : routedPageId hashFn st k < st.pages.length :=
  hInv.2.2.2.2.2.2.1 _ (routedIndex_lt_size hashFn st k)

/-- The master induction over the `Insert → SplitInsert → Insert` recursion:
invariant preservation, directory-page stability, local-depth monotonicity,
and the return-value/stored-pair correspondence. -/
theorem insertT_main (hashFn : Nat → Nat) (cap : Nat) (k v : Nat) :
    ∀ (f : Nat) (st : TableState) (res : OpRes Bool), Inv st →
      insertT hashFn cap f st k v = some res →
      Inv res.st ∧
      res.st.dirPageId = st.dirPageId ∧
      routedDepth hashFn st k ≤ routedDepth hashFn res.st k ∧
      (res.ret = true → storedAt hashFn res.st k v) ∧
      (storedAt hashFn st k v → res.ok = true → res.ret = false) ∧
      (res.ret = false → storedAt hashFn st k v ∨ ¬ storedAt hashFn res.st k v) ∧
      (res.ret = false → storedAt hashFn st k v ∨
        (Bucket.isFull cap (routedBucket hashFn res.st k) = true ∧
         MAX_BUCKET_DEPTH ≤ routedDepth hashFn res.st k)) := by
  intro f
  induction f with
  | zero =>
    intro st res _ heq
    rw [insertT_zero] at heq
    cases heq
  | succ f ih =>
    intro st res hInv heq
    have hInit := hInv.1
    rw [insertT_succ, fetchDirectoryPage_init hInit] at heq
    by_cases hfull : Bucket.isFull cap (routedBucket hashFn st k) = true
    · by_cases hmax : routedDepth hashFn st k < MAX_BUCKET_DEPTH
      · obtain ⟨hretry, hdpid, _, hInv', hdepth', hback, hfwd⟩ :=
          splitStep_spec hashFn cap st k hInv hmax
        rw [insertGo_full_retry hashFn cap _ st _ k v hfull hretry] at heq
        cases hrec : insertT hashFn cap f (splitStep hashFn cap st k).st k v with
        | none =>
          simp only [hrec] at heq
          cases heq
        | some r =>
          simp only [hrec] at heq
          cases heq
          obtain ⟨hIr, hdr, hmr, htr, hsr, hfr2, hcr⟩ :=
            ih (splitStep hashFn cap st k).st r hInv' hrec
          refine ⟨hIr, ?_, ?_, htr, ?_, ?_, ?_⟩
          · show r.st.dirPageId = st.dirPageId
            rw [hdr, hdpid]
          · show routedDepth hashFn st k ≤ routedDepth hashFn r.st k
            calc routedDepth hashFn st k
                ≤ routedDepth hashFn st k + 1 := Nat.le_succ _
              _ = routedDepth hashFn (splitStep hashFn cap st k).st k := hdepth'.symm
              _ ≤ _ := hmr
          · intro hst hok
            show r.ret = false
            have hok2 : (splitStep hashFn cap st k).ok = true ∧ r.ok = true := by
              simpa [Bool.and_eq_true] using hok
            exact hsr (hfwd v hst hok2.1) hok2.2
          · intro hret
            rcases hfr2 hret with hl | hr2
            · exact Or.inl (hback v hl)
            · exact Or.inr hr2
          · intro hret
            rcases hcr hret with hl | hr2
            · exact Or.inl (hback v hl)
            · exact Or.inr hr2
      · have hge := Nat.le_of_not_lt hmax
        have hmx := splitStep_maxed hashFn cap st k hInit hge
        have hnr : (splitStep hashFn cap st k).retry = false := by rw [hmx]
        rw [insertGo_full_noretry hashFn cap _ st _ k v hfull hnr] at heq
        cases heq
        have hsst : (splitStep hashFn cap st k).st = st := by rw [hmx]
        refine ⟨?_, ?_, ?_, ?_, ?_, ?_, ?_⟩
        · show Inv (splitStep hashFn cap st k).st
          rw [hsst]; exact hInv
        · show (splitStep hashFn cap st k).st.dirPageId = st.dirPageId
          rw [hsst]
        · show routedDepth hashFn st k ≤
            routedDepth hashFn (splitStep hashFn cap st k).st k
          rw [hsst]
        · intro hret
          exact absurd hret Bool.false_ne_true
        · intro _ _
          rfl
        · intro _
          show storedAt hashFn st k v ∨
            ¬ storedAt hashFn (splitStep hashFn cap st k).st k v
          rw [hsst]
          exact Classical.em _
        · intro _
          refine Or.inr ⟨?_, ?_⟩
          · show Bucket.isFull cap
              (routedBucket hashFn (splitStep hashFn cap st k).st k) = true
            rw [hsst]; exact hfull
          · show MAX_BUCKET_DEPTH ≤
              routedDepth hashFn (splitStep hashFn cap st k).st k
            rw [hsst]; exact hge
    · have hnf : Bucket.isFull cap (routedBucket hashFn st k) = false := by
        revert hfull
        cases Bucket.isFull cap (routedBucket hashFn st k) <;> simp
      rw [insertGo_fast hashFn cap _ st _ k v hnf] at heq
      cases heq
      have hbpidlt : routedPageId hashFn st k < st.pages.length :=
        routedPageId_lt hashFn k hInv
      have hrb : routedBucket hashFn
          (⟨st.dirInit, st.dirPageId, st.dir,
            st.pages.set (routedPageId hashFn st k)
              (Bucket.insert cap (routedBucket hashFn st k) k v).2⟩ : TableState) k =
          (Bucket.insert cap (routedBucket hashFn st k) k v).2 := by
        show (st.pages.set (routedPageId hashFn st k) _).getD (routedPageId hashFn st k) [] = _
        exact getD_set_self _ _ _ _ hbpidlt
      obtain ⟨_, hlB, hlL, hgd, hdp, hldAll, hfrr, hnd⟩ := hInv
      have hnotfull : ¬ cap ≤ (routedBucket hashFn st k).length := by
        simpa [Bucket.isFull] using hnf
      refine ⟨?_, rfl, Nat.le_of_eq rfl, ?_, ?_, ?_, ?_⟩
      · refine ⟨hInit, hlB, hlL, hgd, ?_, hldAll, ?_, hnd⟩
        · show st.dirPageId < (st.pages.set _ _).length
          rw [List.length_set]; exact hdp
        · intro i hi
          show st.dir.getBucketPageId i < (st.pages.set _ _).length
          rw [List.length_set]; exact hfrr i hi
      · intro hret
        show (k, v) ∈ routedBucket hashFn _ k
        rw [hrb]
        exact Bucket.insert_true_mem cap _ k v hret
      · intro hst _
        show (Bucket.insert cap (routedBucket hashFn st k) k v).1 = false
        rw [Bucket.insert_of_contains cap _ k v hst]
      · intro hret
        rcases (Bucket.insert_false_iff cap _ k v).1 hret with hmem | hlen
        · exact Or.inl hmem
        · exact absurd hlen hnotfull
      · intro hret
        rcases (Bucket.insert_false_iff cap _ k v).1 hret with hmem | hlen
        · exact Or.inl hmem
        · exact absurd hlen hnotfull

end ExtHash
namespace ExtHash

/-- One round of the `Insert` body returns (rather than running out of
fuel) provided the remaining fuel covers the local depths still available
below `MAX_BUCKET_DEPTH`. -/
theorem insertGo_isSome (hashFn : Nat → Nat) (cap : Nat) (k v f : Nat)
    (st1 : TableState) (ev1 : List Ev) (hInv : Inv st1)
    (hle : MAX_BUCKET_DEPTH + 1 ≤ (f + 1) + routedDepth hashFn st1 k)
    (ih : ∀ st', Inv st' →
      MAX_BUCKET_DEPTH + 1 ≤ f + routedDepth hashFn st' k →
      (insertT hashFn cap f st' k v).isSome = true) :
    (insertGo hashFn cap (fun st' => insertT hashFn cap f st' k v)
      st1 ev1 k v).isSome = true := by
  by_cases hfull : Bucket.isFull cap (routedBucket hashFn st1 k) = true
  · by_cases hmax : routedDepth hashFn st1 k < MAX_BUCKET_DEPTH
    · obtain ⟨hretry, _, _, hInv', hdepth', _, _⟩ :=
        splitStep_spec hashFn cap st1 k hInv hmax
      rw [insertGo_full_retry hashFn cap _ st1 ev1 k v hfull hretry]
      have hs := ih (splitStep hashFn cap st1 k).st hInv' (by rw [hdepth']; omega)
      cases hr : insertT hashFn cap f (splitStep hashFn cap st1 k).st k v with
      | none => rw [hr] at hs; simp at hs
      | some r => simp only [hr]; rfl
    · have hge := Nat.le_of_not_lt hmax
      have hnr : (splitStep hashFn cap st1 k).retry = false := by
        rw [splitStep_maxed hashFn cap st1 k hInv.1 hge]
      rw [insertGo_full_noretry hashFn cap _ st1 ev1 k v hfull hnr]
      rfl
  · have hnf : Bucket.isFull cap (routedBucket hashFn st1 k) = false := by
      revert hfull
      cases Bucket.isFull cap (routedBucket hashFn st1 k) <;> simp
    rw [insertGo_fast hashFn cap _ st1 ev1 k v hnf]
    rfl

/-- Fuel sufficiency for the `Insert → SplitInsert → Insert` recursion:
`MAX_BUCKET_DEPTH + 1` rounds always suffice from any entry state (the
local depth of the routed slot grows by one per retry and the recursion
stops at `MAX_BUCKET_DEPTH`). -/
theorem insertT_fuelEnough (hashFn : Nat → Nat) (cap : Nat) (k v : Nat) :
    ∀ (f : Nat) (st : TableState),
      (Inv st ∧ MAX_BUCKET_DEPTH + 1 ≤ f + routedDepth hashFn st k) ∨
      (st.dirInit = false ∧ MAX_BUCKET_DEPTH + 1 ≤ f) →
      (insertT hashFn cap f st k v).isSome = true := by
  intro f
  induction f with
  | zero =>
    intro st h
    rcases h with ⟨hInv, hle⟩ | ⟨_, hle⟩
    · have := routedDepth_le_max hashFn k hInv
      omega
    · omega
  | succ f ih =>
    intro st h
    have ih' : ∀ st', Inv st' →
        MAX_BUCKET_DEPTH + 1 ≤ f + routedDepth hashFn st' k →
        (insertT hashFn cap f st' k v).isSome = true := by
      intro st' hInv' hle'
      exact ih st' (Or.inl ⟨hInv', hle'⟩)
    rcases h with ⟨hInv, hle⟩ | ⟨hUn, hle⟩
    · rw [insertT_succ, fetchDirectoryPage_init hInv.1]
      exact insertGo_isSome hashFn cap k v f st _ hInv hle ih'
    · rw [insertT_succ, fetchDirectoryPage_uninit hUn]
      refine insertGo_isSome hashFn cap k v f (initSt st) _ (Inv_initSt st) ?_ ih'
      rw [routedDepth_initSt]
      omega

end ExtHash
namespace ExtHash

/-- Page ids acquired (`FetchPage` / `NewPage`) in a trace, in order. -/
def acqs (evs : List Ev) : List Nat :=
  evs.filterMap (fun e => match e with
    | .fetch p => some p
    | .newpage p => some p
    | _ => none)

/-- Page ids released (`UnpinPage`) in a trace, in order. -/
def unpins (evs : List Ev) : List Nat :=
  evs.filterMap (fun e => match e with
    | .unpin p _ => some p
    | _ => none)

/-- No pin leak: the acquired and the released page ids agree as multisets,
so each acquire is matched by exactly one unpin. -/
def Balanced (evs : List Ev) : Prop := List.Perm (acqs evs) (unpins evs)

theorem acqs_append (a b : List Ev) : acqs (a ++ b) = acqs a ++ acqs b :=
  List.filterMap_append _ _ _

theorem unpins_append (a b : List Ev) : unpins (a ++ b) = unpins a ++ unpins b :=
  List.filterMap_append _ _ _

theorem Balanced.append {a b : List Ev} (ha : Balanced a) (hb : Balanced b) :
    Balanced (a ++ b) := by
  unfold Balanced
  rw [acqs_append, unpins_append]
  exact List.Perm.append ha hb

theorem perm_swap2 {α : Type} (a b : α) (l : List α) :
    List.Perm (a :: b :: l) (b :: a :: l) :=
  List.Perm.swap b a l

theorem perm_rot3 {α : Type} (a b c : α) : List.Perm [a, b, c] [b, c, a] :=
  (List.perm_append_singleton a [b, c]).symm

/-- The count form of `Balanced`: per page id, as many acquires as unpins. -/
theorem Balanced.count {evs : List Ev} (h : Balanced evs) (pid : Nat) :
    (acqs evs).count pid = (unpins evs).count pid :=
  List.Perm.count_eq h pid

/-- A trace whose releases are one directory unpin short of its acquires
(the shape `FetchDirectoryPage` leaves, the directory page still pinned). -/
def PendingDir (ev1 : List Ev) (dpid : Nat) : Prop :=
  List.Perm (acqs ev1) (unpins ev1 ++ [dpid])

theorem pendingDir_fetch (dpid : Nat) : PendingDir [.fetch dpid] dpid :=
  List.Perm.refl _

theorem pendingDir_initEvs (st : TableState) :
    PendingDir (initEvs st) (initSt st).dirPageId :=
  List.Perm.refl _

theorem fetchDirectoryPage_pending {st : TableState} (hWF : WFState st) :
    PendingDir (fetchDirectoryPage st).2 (fetchDirectoryPage st).1.dirPageId ∧
    Inv (fetchDirectoryPage st).1 := by
  rcases hWF with hUn | hInv
  · rw [fetchDirectoryPage_uninit hUn]
    exact ⟨pendingDir_initEvs st, Inv_initSt st⟩
  · rw [fetchDirectoryPage_init hInv.1]
    exact ⟨pendingDir_fetch st.dirPageId, hInv⟩

/-- Routing prologue plus its two unpins (bucket then directory) closes a
pending-directory trace. -/
theorem pending_close (ev1 : List Ev) (dpid bpid : Nat) (d1 d2 : Bool)
    (hpend : PendingDir ev1 dpid) :
    Balanced (ev1 ++ [.fetch bpid, .unpin bpid d1, .unpin dpid d2]) := by
  unfold Balanced
  rw [acqs_append, unpins_append]
  show List.Perm (acqs ev1 ++ [bpid]) (unpins ev1 ++ [bpid, dpid])
  have h1 : List.Perm (acqs ev1 ++ [bpid]) ((unpins ev1 ++ [dpid]) ++ [bpid]) :=
    List.Perm.append_right _ hpend
  refine List.Perm.trans h1 ?_
  rw [List.append_assoc]
  exact List.Perm.append_left _ (perm_swap2 dpid bpid [])

/-- A pending-directory trace closed by a single directory unpin. -/
theorem pending_close_dir (ev1 : List Ev) (dpid : Nat) (d1 : Bool)
    (hpend : PendingDir ev1 dpid) :
    Balanced (ev1 ++ [.unpin dpid d1]) := by
  unfold Balanced
  rw [acqs_append, unpins_append]
  show List.Perm (acqs ev1 ++ []) (unpins ev1 ++ [dpid])
  rw [List.append_nil]
  exact hpend

theorem splitStep_evs_balanced (hashFn : Nat → Nat) (cap : Nat)
    (st : TableState) (k : Nat) (hInv : Inv st) :
    Balanced (splitStep hashFn cap st k).evs := by
  by_cases hmax : routedDepth hashFn st k < MAX_BUCKET_DEPTH
  · obtain ⟨_, _, hevs, _, _, _, _⟩ := splitStep_spec hashFn cap st k hInv hmax
    rw [hevs]
    show List.Perm [st.dirPageId, splitPageId hashFn st.dir k, st.pages.length]
      [splitPageId hashFn st.dir k, st.pages.length, st.dirPageId]
    exact perm_rot3 _ _ _
  · rw [splitStep_maxed hashFn cap st k hInv.1 (Nat.le_of_not_lt hmax)]
    show List.Perm [st.dirPageId] [st.dirPageId]
    exact List.Perm.refl _

/-- Pin balance of one `Insert` body round, the recursive results assumed
balanced. -/
theorem insertGo_balanced (hashFn : Nat → Nat) (cap : Nat) (k v f : Nat)
    (st1 : TableState) (ev1 : List Ev) (hInv : Inv st1)
    (hpend : PendingDir ev1 st1.dirPageId)
    (ih : ∀ st' res', Inv st' → insertT hashFn cap f st' k v = some res' →
      Balanced res'.evs) :
    ∀ res, insertGo hashFn cap (fun st' => insertT hashFn cap f st' k v)
        st1 ev1 k v = some res → Balanced res.evs := by
  intro res heq
  have hpre : Balanced (ev1 ++ [.fetch (routedPageId hashFn st1 k),
      .unpin (routedPageId hashFn st1 k) true,
      .unpin st1.dirPageId false]) :=
    pending_close ev1 _ _ _ _ hpend
  have hpreF : Balanced (ev1 ++ [.fetch (routedPageId hashFn st1 k),
      .unpin (routedPageId hashFn st1 k) false,
      .unpin st1.dirPageId false]) :=
    pending_close ev1 _ _ _ _ hpend
  by_cases hfull : Bucket.isFull cap (routedBucket hashFn st1 k) = true
  · by_cases hmax : routedDepth hashFn st1 k < MAX_BUCKET_DEPTH
    · obtain ⟨hretry, _, _, hInv', _, _, _⟩ :=
        splitStep_spec hashFn cap st1 k hInv hmax
      rw [insertGo_full_retry hashFn cap _ st1 ev1 k v hfull hretry] at heq
      cases hrec : insertT hashFn cap f (splitStep hashFn cap st1 k).st k v with
      | none => simp only [hrec] at heq; cases heq
      | some r =>
        simp only [hrec] at heq
        cases heq
        show Balanced ((_ ++ (splitStep hashFn cap st1 k).evs) ++ r.evs)
        exact (hpreF.append (splitStep_evs_balanced hashFn cap st1 k hInv)).append
          (ih _ r hInv' hrec)
    · have hnr : (splitStep hashFn cap st1 k).retry = false := by
        rw [splitStep_maxed hashFn cap st1 k hInv.1 (Nat.le_of_not_lt hmax)]
      rw [insertGo_full_noretry hashFn cap _ st1 ev1 k v hfull hnr] at heq
      cases heq
      show Balanced (_ ++ (splitStep hashFn cap st1 k).evs)
      exact hpreF.append (splitStep_evs_balanced hashFn cap st1 k hInv)
  · have hnf : Bucket.isFull cap (routedBucket hashFn st1 k) = false := by
      revert hfull
      cases Bucket.isFull cap (routedBucket hashFn st1 k) <;> simp
    rw [insertGo_fast hashFn cap _ st1 ev1 k v hnf] at heq
    cases heq
    exact hpre

/-- Pin balance of `Insert`, every path and every recursion depth. -/
theorem insertT_balanced (hashFn : Nat → Nat) (cap : Nat) (k v : Nat) :
    ∀ (f : Nat) (st : TableState) (res : OpRes Bool), WFState st →
      insertT hashFn cap f st k v = some res → Balanced res.evs := by
  intro f
  induction f with
  | zero =>
    intro st res _ heq
    rw [insertT_zero] at heq
    cases heq
  | succ f ih =>
    intro st res hWF heq
    obtain ⟨hpend, hInv1⟩ := fetchDirectoryPage_pending hWF
    rw [insertT_succ] at heq
    exact insertGo_balanced hashFn cap k v f _ _ hInv1 hpend
      (fun st' res' hI he => ih st' res' (Or.inr hI) he) res heq

/-- Pin balance of `SplitInsert` entered directly on an initialized state. -/
theorem splitInsertT_balanced (hashFn : Nat → Nat) (cap : Nat)
    (f : Nat) (st : TableState) (k v : Nat) (res : OpRes Bool) (hInv : Inv st)
    (heq : splitInsertT hashFn cap f st k v = some res) :
    Balanced res.evs := by
  unfold splitInsertT at heq
  by_cases hretry : (splitStep hashFn cap st k).retry = true
  · rw [if_pos hretry] at heq
    cases hrec : insertT hashFn cap f (splitStep hashFn cap st k).st k v with
    | none => simp only [hrec] at heq; cases heq
    | some r =>
      simp only [hrec] at heq
      cases heq
      show Balanced ((splitStep hashFn cap st k).evs ++ r.evs)
      refine (splitStep_evs_balanced hashFn cap st k hInv).append ?_
      by_cases hmax : routedDepth hashFn st k < MAX_BUCKET_DEPTH
      · obtain ⟨_, _, _, hInv', _, _, _⟩ := splitStep_spec hashFn cap st k hInv hmax
        exact insertT_balanced hashFn cap k v f _ r (Or.inr hInv') hrec
      · exact absurd hretry (by
          rw [splitStep_maxed hashFn cap st k hInv.1 (Nat.le_of_not_lt hmax)]
          exact Bool.false_ne_true)
  · rw [if_neg hretry] at heq
    cases heq
    exact splitStep_evs_balanced hashFn cap st k hInv

/-- Pin balance of `Merge` (entered on an initialized state, as `Remove`
does). -/
theorem mergeT_balanced (st : TableState) (ti : Nat) (hInit : st.dirInit = true) :
    Balanced (mergeT st ti).2.1 := by
  unfold mergeT
  rw [fetchDirectoryPage_init hInit]
  by_cases h1 : st.dir.getLocalDepth ti = 0
  · rw [if_pos h1]
    exact pending_close_dir _ _ _ (pendingDir_fetch st.dirPageId)
  · rw [if_neg h1]
    by_cases h2 : st.dir.getLocalDepth ti ≠
        st.dir.getLocalDepth (st.dir.getSplitImageIndex ti)
    · rw [if_pos h2]
      exact pending_close_dir _ _ _ (pendingDir_fetch st.dirPageId)
    · rw [if_neg h2]
      by_cases h3 : (st.pages.getD (st.dir.getBucketPageId ti) []).isEmpty = true
      · rw [if_neg (by rw [h3]; exact Bool.false_ne_true)]
        show Balanced ([.fetch st.dirPageId] ++
          [.fetch (st.dir.getBucketPageId ti),
           .unpin (st.dir.getBucketPageId ti) false, .delete _,
           .unpin st.dirPageId true])
        show List.Perm [st.dirPageId, st.dir.getBucketPageId ti]
          [st.dir.getBucketPageId ti, st.dirPageId]
        exact perm_swap2 _ _ []
      · have h3' : (st.pages.getD (st.dir.getBucketPageId ti) []).isEmpty = false := by
          revert h3
          cases (st.pages.getD (st.dir.getBucketPageId ti) []).isEmpty <;> simp
        rw [if_pos (by rw [h3']; rfl)]
        exact pending_close _ _ _ _ _ (pendingDir_fetch st.dirPageId)

/-- Pin balance of `GetValue`. -/
theorem getV_balanced (hashFn : Nat → Nat) (st : TableState) (k : Nat)
    (hWF : WFState st) : Balanced (getV hashFn st k).evs := by
  obtain ⟨hpend, _⟩ := fetchDirectoryPage_pending hWF
  exact pending_close _ _ _ _ _ hpend

/-- Pin balance of `Remove` (the `Merge` tail included). -/
theorem removeT_balanced (hashFn : Nat → Nat) (st : TableState) (k v : Nat)
    (hWF : WFState st) : Balanced (removeT hashFn st k v).evs := by
  obtain ⟨hpend, hInv1⟩ := fetchDirectoryPage_pending hWF
  unfold removeT
  have hpre : Balanced ((fetchDirectoryPage st).2 ++
      [.fetch (keyToPageId hashFn k (fetchDirectoryPage st).1.dir),
       .unpin (keyToPageId hashFn k (fetchDirectoryPage st).1.dir) true,
       .unpin (fetchDirectoryPage st).1.dirPageId false]) :=
    pending_close _ _ _ _ _ hpend
  by_cases hemp : (Bucket.remove
      ((fetchDirectoryPage st).1.pages.getD
        (keyToPageId hashFn k (fetchDirectoryPage st).1.dir) []) k v).2.isEmpty = true
  · rw [if_pos hemp]
    refine hpre.append (mergeT_balanced _ _ ?_)
    show (fetchDirectoryPage st).1.dirInit = true
    exact hInv1.1
  · rw [if_neg hemp]
    exact hpre

/-- Pin balance of `GetGlobalDepth`. -/
theorem getGlobalDepthT_balanced (st : TableState) (hWF : WFState st) :
    Balanced (getGlobalDepthT st).2.2 := by
  obtain ⟨hpend, _⟩ := fetchDirectoryPage_pending hWF
  exact pending_close_dir _ _ _ hpend

/-- Pin balance of `VerifyIntegrity`. -/
theorem verifyIntegrityT_balanced (st : TableState) (hWF : WFState st) :
    Balanced (verifyIntegrityT st).2.1 := by
  obtain ⟨hpend, _⟩ := fetchDirectoryPage_pending hWF
  exact pending_close_dir _ _ _ hpend

end ExtHash
namespace ExtHash

/-- `Merge` on any of its three skip paths: the state is returned
untouched, no assert fires, and the trace is one of the two skip traces
(every unpin in them clean). -/
theorem mergeT_skip (st : TableState) (ti : Nat) (hInit : st.dirInit = true)
    (hskip : st.dir.getLocalDepth ti = 0 ∨
      st.dir.getLocalDepth ti ≠ st.dir.getLocalDepth (st.dir.getSplitImageIndex ti) ∨
      (st.pages.getD (st.dir.getBucketPageId ti) []).isEmpty = false) :
    (mergeT st ti).1 = st ∧ (mergeT st ti).2.2 = true ∧
    ((mergeT st ti).2.1 = [.fetch st.dirPageId, .unpin st.dirPageId false] ∨
     (mergeT st ti).2.1 = [.fetch st.dirPageId, .fetch (st.dir.getBucketPageId ti),
       .unpin (st.dir.getBucketPageId ti) false, .unpin st.dirPageId false]) := by
  unfold mergeT
  rw [fetchDirectoryPage_init hInit]
  by_cases h1 : st.dir.getLocalDepth ti = 0
  · rw [if_pos h1]
    exact ⟨rfl, rfl, Or.inl rfl⟩
  · rw [if_neg h1]
    by_cases h2 : st.dir.getLocalDepth ti ≠
        st.dir.getLocalDepth (st.dir.getSplitImageIndex ti)
    · rw [if_pos h2]
      exact ⟨rfl, rfl, Or.inl rfl⟩
    · rw [if_neg h2]
      have h3 : (st.pages.getD (st.dir.getBucketPageId ti) []).isEmpty = false := by
        rcases hskip with h | h | h
        · exact absurd h h1
        · exact absurd h h2
        · exact h
      rw [if_pos (by rw [h3]; rfl)]
      exact ⟨rfl, rfl, Or.inr rfl⟩

/-- `Merge` fetches the directory page exactly once on every path,
provided the target slot's bucket page is not the directory page. -/
theorem mergeT_dirfetch_count (st : TableState) (ti : Nat)
    (hInit : st.dirInit = true)
    (hne : st.dir.getBucketPageId ti ≠ st.dirPageId) :
    ((mergeT st ti).2.1).count (Ev.fetch st.dirPageId) = 1 := by
  have hne' : (Ev.fetch (st.dir.getBucketPageId ti) == Ev.fetch st.dirPageId) = false := by
    simp [hne]
  unfold mergeT
  rw [fetchDirectoryPage_init hInit]
  by_cases h1 : st.dir.getLocalDepth ti = 0
  · rw [if_pos h1]
    show List.count (Ev.fetch st.dirPageId)
      [Ev.fetch st.dirPageId, Ev.unpin st.dirPageId false] = 1
    simp [List.count_cons]
  · rw [if_neg h1]
    by_cases h2 : st.dir.getLocalDepth ti ≠
        st.dir.getLocalDepth (st.dir.getSplitImageIndex ti)
    · rw [if_pos h2]
      show List.count (Ev.fetch st.dirPageId)
        [Ev.fetch st.dirPageId, Ev.unpin st.dirPageId false] = 1
      simp [List.count_cons]
    · rw [if_neg h2]
      by_cases h3 : (st.pages.getD (st.dir.getBucketPageId ti) []).isEmpty = true
      · rw [if_neg (by rw [h3]; exact Bool.false_ne_true)]
        show List.count (Ev.fetch st.dirPageId)
          [Ev.fetch st.dirPageId, Ev.fetch (st.dir.getBucketPageId ti),
           Ev.unpin (st.dir.getBucketPageId ti) false,
           Ev.delete (st.dir.getBucketPageId ti), Ev.unpin st.dirPageId true] = 1
        simp [List.count_cons, hne]
      · have h3' : (st.pages.getD (st.dir.getBucketPageId ti) []).isEmpty = false := by
          revert h3
          cases (st.pages.getD (st.dir.getBucketPageId ti) []).isEmpty <;> simp
        rw [if_pos (by rw [h3']; rfl)]
        show List.count (Ev.fetch st.dirPageId)
          [Ev.fetch st.dirPageId, Ev.fetch (st.dir.getBucketPageId ti),
           Ev.unpin (st.dir.getBucketPageId ti) false,
           Ev.unpin st.dirPageId false] = 1
        simp [List.count_cons, hne]

/-- `Remove` on an initialized state: the returned flag is the bucket-level
removal flag, and the directory is re-fetched (the `Merge` call) exactly
when the routed bucket is empty after the attempt. -/
theorem removeT_facts (hashFn : Nat → Nat) (st : TableState) (k v : Nat)
    (hInv : Inv st) :
    (removeT hashFn st k v).ret = (Bucket.remove (routedBucket hashFn st k) k v).1 ∧
    ((removeT hashFn st k v).evs.count (Ev.fetch st.dirPageId) =
      if (Bucket.remove (routedBucket hashFn st k) k v).2.isEmpty then 2 else 1) := by
  have hbne : routedPageId hashFn st k ≠ st.dirPageId :=
    hInv.2.2.2.2.2.2.2 _ (routedIndex_lt_size hashFn st k)
  have hbne' : (Ev.fetch (routedPageId hashFn st k) == Ev.fetch st.dirPageId) = false := by
    simp [hbne]
  unfold removeT
  rw [fetchDirectoryPage_init hInv.1]
  by_cases hemp : (Bucket.remove
      (st.pages.getD (keyToPageId hashFn k st.dir) []) k v).2.isEmpty = true
  · rw [if_pos hemp]
    constructor
    · rfl
    · have hrw : (if (Bucket.remove (routedBucket hashFn st k) k v).2.isEmpty
          then (2 : Nat) else 1) = 2 := by
        rw [if_pos]
        exact hemp
      rw [hrw]
      show List.count (Ev.fetch st.dirPageId)
        ([Ev.fetch st.dirPageId, Ev.fetch (routedPageId hashFn st k),
          Ev.unpin (routedPageId hashFn st k) true,
          Ev.unpin st.dirPageId false] ++ _) = 2
      rw [List.count_append]
      have hmc := mergeT_dirfetch_count
        (⟨st.dirInit, st.dirPageId, st.dir,
          st.pages.set (keyToPageId hashFn k st.dir)
            (Bucket.remove (st.pages.getD (keyToPageId hashFn k st.dir) []) k v).2⟩ :
          TableState)
        (keyToDirectoryIndex hashFn k st.dir) hInv.1
        (hInv.2.2.2.2.2.2.2 _ (routedIndex_lt_size hashFn st k))
      rw [hmc]
      simp [List.count_cons, hbne]
  · rw [if_neg hemp]
    constructor
    · rfl
    · have hrw : (if (Bucket.remove (routedBucket hashFn st k) k v).2.isEmpty
          then (2 : Nat) else 1) = 1 := by
        rw [if_neg]
        intro hc
        exact hemp hc
      rw [hrw]
      show List.count (Ev.fetch st.dirPageId)
        [Ev.fetch st.dirPageId, Ev.fetch (routedPageId hashFn st k),
         Ev.unpin (routedPageId hashFn st k) true,
         Ev.unpin st.dirPageId false] = 1
      simp [List.count_cons, hbne]

/-- `GetValue` on an initialized state, fully evaluated. -/
theorem getV_eq_init (hashFn : Nat → Nat) (st : TableState) (k : Nat)
    (hInit : st.dirInit = true) :
    getV hashFn st k =
      ⟨(!(Bucket.getValue (routedBucket hashFn st k) k).isEmpty,
        Bucket.getValue (routedBucket hashFn st k) k), st,
       [.fetch st.dirPageId, .fetch (routedPageId hashFn st k),
        .unpin (routedPageId hashFn st k) false, .unpin st.dirPageId false],
       true⟩ := by
  unfold getV
  rw [fetchDirectoryPage_init hInit]
  rfl

/-- The `Insert` fast path on a duplicate pair: the table is returned
unchanged, yet the bucket page is unpinned dirty. -/
theorem insert_dup_fast (hashFn : Nat → Nat) (cap : Nat) (st : TableState)
    (k v f : Nat) (hInv : Inv st) (hst : storedAt hashFn st k v)
    (hnf : Bucket.isFull cap (routedBucket hashFn st k) = false) :
    insertT hashFn cap (f + 1) st k v =
      some ⟨false, st, [.fetch st.dirPageId, .fetch (routedPageId hashFn st k),
        .unpin (routedPageId hashFn st k) true, .unpin st.dirPageId false],
        true⟩ := by
  rw [insertT_succ, fetchDirectoryPage_init hInv.1,
    insertGo_fast hashFn cap _ st _ k v hnf]
  have hins : Bucket.insert cap (routedBucket hashFn st k) k v =
      (false, routedBucket hashFn st k) := Bucket.insert_of_contains _ _ _ _ hst
  rw [hins]
  show some (⟨false, ⟨st.dirInit, st.dirPageId, st.dir,
      st.pages.set (routedPageId hashFn st k)
        (st.pages.getD (routedPageId hashFn st k) [])⟩,
      [.fetch st.dirPageId, .fetch (routedPageId hashFn st k),
       .unpin (routedPageId hashFn st k) true, .unpin st.dirPageId false],
      true⟩ : OpRes Bool) =
    some (⟨false, st,
      [.fetch st.dirPageId, .fetch (routedPageId hashFn st k),
       .unpin (routedPageId hashFn st k) true, .unpin st.dirPageId false],
      true⟩ : OpRes Bool)
  rw [set_getD_self]

/-- `Remove` of an absent pair from a bucket that stays non-empty: the
table is returned unchanged, yet the bucket page is unpinned dirty. -/
theorem remove_miss (hashFn : Nat → Nat) (st : TableState) (k v : Nat)
    (hInv : Inv st) (hmiss : ¬ storedAt hashFn st k v)
    (hne : (routedBucket hashFn st k).isEmpty = false) :
    removeT hashFn st k v =
      ⟨false, st, [.fetch st.dirPageId, .fetch (routedPageId hashFn st k),
        .unpin (routedPageId hashFn st k) true, .unpin st.dirPageId false],
       true⟩ := by
  have hmiss' : (k, v) ∉ st.pages.getD (keyToPageId hashFn k st.dir) [] := hmiss
  have hrem : Bucket.remove (st.pages.getD (keyToPageId hashFn k st.dir) []) k v =
      (false, st.pages.getD (keyToPageId hashFn k st.dir) []) := by
    unfold Bucket.remove
    rw [if_neg (fun hc => hmiss' ((Bucket.contains_iff _ _ _).1 hc))]
  have hne' : (st.pages.getD (keyToPageId hashFn k st.dir) []).isEmpty = false := hne
  simp only [removeT, fetchDirectoryPage_init hInv.1, hrem, hne',
    Bool.false_eq_true, if_false]
  show (⟨false, ⟨st.dirInit, st.dirPageId, st.dir,
      st.pages.set (routedPageId hashFn st k)
        (st.pages.getD (routedPageId hashFn st k) [])⟩,
      [.fetch st.dirPageId, .fetch (routedPageId hashFn st k),
       .unpin (routedPageId hashFn st k) true, .unpin st.dirPageId false],
      true⟩ : OpRes Bool) =
    (⟨false, st,
      [.fetch st.dirPageId, .fetch (routedPageId hashFn st k),
       .unpin (routedPageId hashFn st k) true, .unpin st.dirPageId false],
      true⟩ : OpRes Bool)
  rw [set_getD_self]

/-- `Insert` into a full bucket whose local depth has hit
`MAX_BUCKET_DEPTH`: the failure return, state unchanged. -/
theorem insert_full_maxed (hashFn : Nat → Nat) (cap : Nat) (st : TableState)
    (k v f : Nat) (hInv : Inv st)
    (hfull : Bucket.isFull cap (routedBucket hashFn st k) = true)
    (hge : MAX_BUCKET_DEPTH ≤ routedDepth hashFn st k) :
    insertT hashFn cap (f + 1) st k v =
      some ⟨false, st, [.fetch st.dirPageId, .fetch (routedPageId hashFn st k),
        .unpin (routedPageId hashFn st k) false, .unpin st.dirPageId false,
        .fetch st.dirPageId, .unpin st.dirPageId false], true⟩ := by
  have hmx := splitStep_maxed hashFn cap st k hInv.1 hge
  have hnr : (splitStep hashFn cap st k).retry = false := by rw [hmx]
  rw [insertT_succ, fetchDirectoryPage_init hInv.1,
    insertGo_full_noretry hashFn cap _ st _ k v hfull hnr, hmx]
  rfl

end ExtHash
namespace ExtHash

/-! ### Concrete executions -/

/-- Concrete driver: insert each listed key (value = key) into a fresh
table with hash = identity, bucket capacity 2 and fuel 12, recording the
final state and whether every insert returned true with every source
assert passing. -/
def insRunB (ks : List Nat) : Option (TableState × Bool) :=
  ks.foldlM (fun acc k => (insertT id 2 12 acc.1 k k).map
    (fun r => (r.st, acc.2 && r.ret && r.ok))) (initialState, true)

/-- The freshly initialized table (directory created lazily, one empty
bucket), used as a small concrete well-formed state. -/
def stW : TableState := initSt initialState

/-- The table after inserting keys 0 and 512 (capacity 2): the single
bucket holds both pairs and is full while every local depth is 0. -/
def stF : TableState := ((insRunB [0, 512]).map Prod.fst).getD initialState

set_option maxRecDepth 100000 in
/-- C1: the Insert/Lookup round trip FAILS on the code.  Inserting keys
0,4,2,8,1,3,5,7,15,23 (hash = identity, capacity 2) returns true for every
insert with every assert passing; no Remove intervenes; yet afterwards the
pair (3, 3) is no longer stored where lookup probes and `GetValue 3`
returns false with the empty value list — the split rewiring loops leave
directory slot 3 stale, orphaning the pair. -/
theorem claim_C1_roundtrip_lost_pair :
    (insRunB [0, 4, 2, 8, 1, 3, 5, 7, 15, 23]).map (fun p =>
      (p.2, decide (storedAt id p.1 3 3), (getV id p.1 3).ret.1,
       (getV id p.1 3).ret.2)) = some (true, false, false, []) := by decide

set_option maxRecDepth 100000 in
/-- C2: the alias-rewiring claim FAILS on the code.  After inserting
0,4,2,8,1,3 (hash = identity, capacity 2) slots 1 and 5 alias one bucket
(page 2, local depth 1).  Splitting the bucket at key 5 sets
local depth 2 at slot 5 but leaves the aliasing slot 1 at local depth 1
(slots 1 and 5 agree on bit 1, so per the claim slot 1 had to reach local
depth 2 as well); finishing the insert of key 5 leaves a directory on
which `VerifyIntegrity` fails. -/
theorem claim_C2_alias_rewire_stale :
    (insRunB [0, 4, 2, 8, 1, 3]).map (fun p =>
      (p.2, p.1.dir.getLocalDepth 5, p.1.dir.getBucketPageId 5,
       p.1.dir.getBucketPageId 1, p.1.dir.getLocalDepth 1)) =
      some (true, 1, 2, 2, 1) ∧
    (insRunB [0, 4, 2, 8, 1, 3]).map (fun p =>
      ((splitStep id 2 p.1 5).st.dir.getLocalDepth 5,
       (splitStep id 2 p.1 5).st.dir.getLocalDepth 1)) = some (2, 1) ∧
    ((insRunB [0, 4, 2, 8, 1, 3]).bind (fun p => insertT id 2 12 p.1 5 5)).map
      (fun r => (r.ret, r.ok, r.st.dir.verifyIntegrityOk)) =
      some (true, true, false) := by decide

set_option maxRecDepth 100000 in
/-- C8: the redistribution assertion FAILS on the code.  After inserting
0,4,2,8,7,15 (hash = identity, capacity 2, all inserts clean), inserting
key 5 triggers a split in which a saved pair routes to a directory slot
holding neither the split page nor the new image page: the modelled assert
condition `ok` comes back false although the insert itself returns true. -/
theorem claim_C8_redistribute_assert_fails :
    (insRunB [0, 4, 2, 8, 7, 15]).map (fun p => p.2) = some true ∧
    ((insRunB [0, 4, 2, 8, 7, 15]).bind (fun p => insertT id 2 12 p.1 5 5)).map
      (fun r => (r.ret, r.ok)) = some (true, false) := by decide

set_option maxRecDepth 100000 in
/-- C3 counterexample: after inserting 0 and 512 (capacity 2), the pair
(1024, 1024) is not stored, and its routed bucket is full with local depth
0 (far below `MAX_BUCKET_DEPTH`); the claim then requires Insert to return
true, but it returns false (every assert passing): the doubling cascade
exhausts `MAX_BUCKET_DEPTH` because 0, 512 and 1024 share all nine low
fingerprint bits. -/
theorem claim_C3_counterexample :
    (insRunB [0, 512]).map (fun p =>
      (p.2, decide (storedAt id p.1 1024 1024),
       Bucket.isFull 2 (routedBucket id p.1 1024), routedDepth id p.1 1024)) =
      some (true, false, true, 0) ∧
    ((insRunB [0, 512]).bind (fun p => insertT id 2 12 p.1 1024 1024)).map
      (fun r => (r.ret, r.ok)) = some (false, true) := by decide

set_option maxRecDepth 100000 in
/-- C5 counterexample: after inserting key 0, re-inserting the duplicate
pair (0, 0) takes the fast path, modifies nothing (the returned state
equals the entry state), yet unpins the bucket page (page 1) with
dirty = true — the dirty flag is not "iff modified". -/
theorem claim_C5_counterexample :
    ((insRunB [0]).bind (fun p => (insertT id 2 12 p.1 0 0).map
      (fun r => (r.ret, decide (r.st = p.1), r.evs)))) =
      some (false, true, [.fetch 0, .fetch 1, .unpin 1 true, .unpin 0 false]) := by
  decide

/-- C7 counterexample: `Remove(0, 0)` on a fresh table removes nothing
(returns false), so the removal did not make the bucket empty; yet the
trace re-fetches the directory page after the bucket unpin — `Merge` IS
invoked, because the code tests emptiness of the bucket, not whether this
removal emptied it.  (The bucket unpin is also dirty despite no write.) -/
theorem claim_C7_counterexample :
    (removeT id initialState 0 0).ret = false ∧
    (removeT id initialState 0 0).evs =
      [.newpage 0, .newpage 1, .unpin 0 true, .unpin 1 true, .fetch 0,
       .fetch 1, .unpin 1 true, .unpin 0 false, .fetch 0, .unpin 0 false] := by
  decide

set_option maxRecDepth 100000 in
/-- C10 counterexample: after inserting 0, 512 and 1024 the pair (0, 0) is
stored and its routed bucket is full — the claim's hypotheses — but the
local depth is already `MAX_BUCKET_DEPTH`, so the duplicate insert returns
false WITHOUT mutating anything: the claimed "always splits first" fails
at the depth cap. -/
theorem claim_C10_counterexample :
    (insRunB [0, 512, 1024]).map (fun p =>
      (decide (storedAt id p.1 0 0), Bucket.isFull 2 (routedBucket id p.1 0),
       routedDepth id p.1 0)) = some (true, true, 9) ∧
    ((insRunB [0, 512, 1024]).bind (fun p => (insertT id 2 12 p.1 0 0).map
      (fun r => (r.ret, decide (r.st = p.1))))) = some (false, true) := by decide

end ExtHash
namespace ExtHash

/-- C3 (amended): on a well-formed table, (a) whenever `Insert` returns
false, the pair was already stored on entry or the key's routed bucket
ends full with its local depth at `MAX_BUCKET_DEPTH`; (b) if the exact
pair is already stored and every assert passes, `Insert` returns false;
(c) if on entry the routed bucket is full and its local depth has reached
`MAX_BUCKET_DEPTH`, `Insert` returns false immediately, leaving the state
unchanged.  (The original "false only if duplicate or capacity exhausted
*on entry*" biconditional is refuted by the recorded counterexample: a
doubling cascade can exhaust the depth during the call.) -/
theorem claim_C3_insert_false_conditions (hashFn : Nat → Nat) (cap : Nat)
    (st : TableState) (k v : Nat) (hInv : Inv st) :
    (∀ f res, insertT hashFn cap f st k v = some res → res.ret = false →
      storedAt hashFn st k v ∨
        (Bucket.isFull cap (routedBucket hashFn res.st k) = true ∧
         MAX_BUCKET_DEPTH ≤ routedDepth hashFn res.st k)) ∧
    (∀ f res, insertT hashFn cap f st k v = some res → storedAt hashFn st k v →
      res.ok = true → res.ret = false) ∧
    (∀ f, Bucket.isFull cap (routedBucket hashFn st k) = true →
      MAX_BUCKET_DEPTH ≤ routedDepth hashFn st k →
      insertT hashFn cap (f + 1) st k v =
        some ⟨false, st, [.fetch st.dirPageId, .fetch (routedPageId hashFn st k),
          .unpin (routedPageId hashFn st k) false, .unpin st.dirPageId false,
          .fetch st.dirPageId, .unpin st.dirPageId false], true⟩) := by
  refine ⟨?_, ?_, ?_⟩
  · intro f res heq hret
    exact (insertT_main hashFn cap k v f st res hInv heq).2.2.2.2.2.2 hret
  · intro f res heq hst hok
    exact (insertT_main hashFn cap k v f st res hInv heq).2.2.2.2.1 hst hok
  · intro f hfull hge
    exact insert_full_maxed hashFn cap st k v f hInv hfull hge

set_option maxRecDepth 100000 in
/-- Witness for C3 at the freshly initialized table and key 0. -/
theorem claim_C3_insert_false_conditions_witness :
    Inv stW ∧
    (∀ f res, insertT id 2 f stW 0 0 = some res → res.ret = false →
      storedAt id stW 0 0 ∨
        (Bucket.isFull 2 (routedBucket id res.st 0) = true ∧
         MAX_BUCKET_DEPTH ≤ routedDepth id res.st 0)) :=
  ⟨by decide, (claim_C3_insert_false_conditions id 2 stW 0 0 (by decide)).1⟩

/-- C4: `Merge` is atomic on each of its three skip paths (local depth 0,
split-image depth mismatch, target bucket not empty): the state — global
depth, every slot's page id and local depth, every bucket — is returned
unchanged, no assert fires, and the trace is one of the two skip traces,
in which every unpin is clean. -/
theorem claim_C4_merge_skip_atomic (st : TableState) (ti : Nat)
    (hInit : st.dirInit = true)
    (hskip : st.dir.getLocalDepth ti = 0 ∨
      st.dir.getLocalDepth ti ≠ st.dir.getLocalDepth (st.dir.getSplitImageIndex ti) ∨
      (st.pages.getD (st.dir.getBucketPageId ti) []).isEmpty = false) :
    (mergeT st ti).1 = st ∧ (mergeT st ti).2.2 = true ∧
    ((mergeT st ti).2.1 = [.fetch st.dirPageId, .unpin st.dirPageId false] ∨
     (mergeT st ti).2.1 = [.fetch st.dirPageId, .fetch (st.dir.getBucketPageId ti),
       .unpin (st.dir.getBucketPageId ti) false, .unpin st.dirPageId false]) :=
  mergeT_skip st ti hInit hskip

set_option maxRecDepth 100000 in
/-- Witness for C4 at the freshly initialized table, slot 0 (local
depth 0, the first skip path). -/
theorem claim_C4_merge_skip_atomic_witness :
    (stW.dirInit = true ∧ stW.dir.getLocalDepth 0 = 0) ∧
    (mergeT stW 0).1 = stW ∧ (mergeT stW 0).2.2 = true ∧
    ((mergeT stW 0).2.1 = [.fetch stW.dirPageId, .unpin stW.dirPageId false] ∨
     (mergeT stW 0).2.1 = [.fetch stW.dirPageId, .fetch (stW.dir.getBucketPageId 0),
       .unpin (stW.dir.getBucketPageId 0) false, .unpin stW.dirPageId false]) :=
  ⟨⟨by decide, by decide⟩,
   claim_C4_merge_skip_atomic stW 0 (by decide) (Or.inl (by decide))⟩

/-- C5 (amended): on a well-formed table, (a) `GetValue` unpins every page
clean; but the "dirty iff modified" discipline fails in the claimed
direction: (b) the `Insert` fast path on an already-stored pair returns
the state unchanged yet unpins the bucket page dirty, and (c) `Remove` of
an absent pair (bucket staying non-empty) returns the state unchanged yet
unpins the bucket page dirty — both unpin the bucket dirty
unconditionally.  (The recorded counterexample exhibits (b) concretely.) -/
theorem claim_C5_dirty_flag_discipline (hashFn : Nat → Nat) (cap : Nat)
    (st : TableState) (k v f : Nat) (hInv : Inv st) :
    (∀ p d, Ev.unpin p d ∈ (getV hashFn st k).evs → d = false) ∧
    (storedAt hashFn st k v →
      Bucket.isFull cap (routedBucket hashFn st k) = false →
      insertT hashFn cap (f + 1) st k v =
        some ⟨false, st, [.fetch st.dirPageId, .fetch (routedPageId hashFn st k),
          .unpin (routedPageId hashFn st k) true, .unpin st.dirPageId false],
          true⟩) ∧
    (¬ storedAt hashFn st k v → (routedBucket hashFn st k).isEmpty = false →
      removeT hashFn st k v =
        ⟨false, st, [.fetch st.dirPageId, .fetch (routedPageId hashFn st k),
          .unpin (routedPageId hashFn st k) true, .unpin st.dirPageId false],
         true⟩) := by
  refine ⟨?_, ?_, ?_⟩
  · intro p d hm
    rw [getV_eq_init hashFn st k hInv.1] at hm
    simp only [OpRes.evs, List.mem_cons, List.not_mem_nil, or_false] at hm
    rcases hm with h | h | h | h
    · exact Ev.noConfusion h
    · exact Ev.noConfusion h
    · injection h
    · injection h
  · intro hst hnf
    exact insert_dup_fast hashFn cap st k v f hInv hst hnf
  · intro hmiss hne
    exact remove_miss hashFn st k v hInv hmiss hne

set_option maxRecDepth 100000 in
/-- Witness for C5 at the freshly initialized table and key 0. -/
theorem claim_C5_dirty_flag_discipline_witness :
    Inv stW ∧ (∀ p d, Ev.unpin p d ∈ (getV id stW 0).evs → d = false) :=
  ⟨by decide, (claim_C5_dirty_flag_discipline id 2 stW 0 0 0 (by decide)).1⟩

/-- C6: the `Insert → SplitInsert → Insert` recursion terminates.
`MAX_BUCKET_DEPTH + 1` rounds of fuel always return from any entry state;
more precisely `MAX_BUCKET_DEPTH + 1 - local depth` rounds suffice on a
well-formed table.  Each successful `SplitInsert` round strictly increases
the local depth of the key's routed slot by one, and once the local depth
has reached `MAX_BUCKET_DEPTH`, `SplitInsert` returns false without
recursing, leaving the state unchanged. -/
theorem claim_C6_split_recursion_terminates (hashFn : Nat → Nat) (cap : Nat)
    (k v : Nat) (st : TableState) (hWF : WFState st) :
    (insertT hashFn cap (MAX_BUCKET_DEPTH + 1) st k v).isSome = true ∧
    (∀ f, Inv st → MAX_BUCKET_DEPTH + 1 ≤ f + routedDepth hashFn st k →
      (insertT hashFn cap f st k v).isSome = true) ∧
    (Inv st → routedDepth hashFn st k < MAX_BUCKET_DEPTH →
      (splitStep hashFn cap st k).retry = true ∧
      routedDepth hashFn (splitStep hashFn cap st k).st k =
        routedDepth hashFn st k + 1) ∧
    (Inv st → MAX_BUCKET_DEPTH ≤ routedDepth hashFn st k → ∀ f,
      splitInsertT hashFn cap f st k v =
        some ⟨false, st, [.fetch st.dirPageId, .unpin st.dirPageId false],
          true⟩) := by
  refine ⟨?_, ?_, ?_, ?_⟩
  · rcases hWF with hUn | hInv
    · exact insertT_fuelEnough hashFn cap k v _ st (Or.inr ⟨hUn, Nat.le_refl _⟩)
    · exact insertT_fuelEnough hashFn cap k v _ st (Or.inl ⟨hInv, by omega⟩)
  · intro f hInv hle
    exact insertT_fuelEnough hashFn cap k v f st (Or.inl ⟨hInv, hle⟩)
  · intro hInv hlt
    obtain ⟨hretry, _, _, _, hdepth, _, _⟩ := splitStep_spec hashFn cap st k hInv hlt
    exact ⟨hretry, hdepth⟩
  · intro hInv hge f
    unfold splitInsertT
    rw [splitStep_maxed hashFn cap st k hInv.1 hge]
    rfl

/-- Witness for C6 at the fresh (uninitialized) table and key 0. -/
theorem claim_C6_split_recursion_terminates_witness :
    WFState initialState ∧
    (insertT id 2 (MAX_BUCKET_DEPTH + 1) initialState 0 0).isSome = true :=
  ⟨by decide,
   (claim_C6_split_recursion_terminates id 2 0 0 initialState (by decide)).1⟩

/-- C7 (amended): on a well-formed table, `Remove` returns false exactly
when no matching pair is stored; and `Merge` is invoked — observable as a
second fetch of the directory page — exactly when the routed bucket is
empty AFTER the removal attempt, whether or not this removal emptied it.
(The recorded counterexample shows the original "iff the removal made it
empty" wrong: an already-empty bucket triggers `Merge` on a removal that
removed nothing.) -/
theorem claim_C7_remove_merge_condition (hashFn : Nat → Nat) (st : TableState)
    (k v : Nat) (hInv : Inv st) :
    ((removeT hashFn st k v).ret = false ↔ ¬ storedAt hashFn st k v) ∧
    ((removeT hashFn st k v).evs.count (Ev.fetch st.dirPageId) =
      if (Bucket.remove (routedBucket hashFn st k) k v).2.isEmpty then 2 else 1) := by
  refine ⟨?_, (removeT_facts hashFn st k v hInv).2⟩
  rw [(removeT_facts hashFn st k v hInv).1]
  exact Bucket.remove_false_iff _ _ _

set_option maxRecDepth 100000 in
/-- Witness for C7 at the freshly initialized table and key 0 (nothing
stored: the removal fails and the empty bucket still triggers `Merge`). -/
theorem claim_C7_remove_merge_condition_witness :
    Inv stW ∧
    ((removeT id stW 0 0).ret = false ↔ ¬ storedAt id stW 0 0) :=
  ⟨by decide, (claim_C7_remove_merge_condition id stW 0 0 (by decide)).1⟩

/-- C9: no pin leak.  From any entry state, for every public operation —
`GetValue`, `Insert` (any fuel), `Remove` (its `Merge` tail included),
`GetGlobalDepth`, `VerifyIntegrity`, and `SplitInsert` / `Merge` entered
on a well-formed state — the multiset of page ids acquired by
`FetchPage`/`NewPage` in the operation's trace equals the multiset of page
ids released by `UnpinPage`: every acquire is matched by exactly one
unpin (the page `Merge` deletes is unpinned before `DeletePage`). -/
theorem claim_C9_no_pin_leak (hashFn : Nat → Nat) (cap : Nat)
    (st : TableState) (k v ti f : Nat) (hWF : WFState st) :
    Balanced (getV hashFn st k).evs ∧
    (∀ res, insertT hashFn cap f st k v = some res → Balanced res.evs) ∧
    Balanced (removeT hashFn st k v).evs ∧
    Balanced (getGlobalDepthT st).2.2 ∧
    Balanced (verifyIntegrityT st).2.1 ∧
    (Inv st → ∀ res, splitInsertT hashFn cap f st k v = some res →
      Balanced res.evs) ∧
    (st.dirInit = true → Balanced (mergeT st ti).2.1) := by
  refine ⟨getV_balanced hashFn st k hWF, ?_, removeT_balanced hashFn st k v hWF,
    getGlobalDepthT_balanced st hWF, verifyIntegrityT_balanced st hWF, ?_, ?_⟩
  · intro res heq
    exact insertT_balanced hashFn cap k v f st res hWF heq
  · intro hInv res heq
    exact splitInsertT_balanced hashFn cap f st k v res hInv heq
  · intro hInit
    exact mergeT_balanced st ti hInit

/-- Witness for C9 at the fresh table and key 0. -/
theorem claim_C9_no_pin_leak_witness :
    WFState initialState ∧ Balanced (getV id initialState 0).evs :=
  ⟨by decide, (claim_C9_no_pin_leak id 2 initialState 0 0 0 1 (by decide)).1⟩

/-- C10 (amended): on a well-formed table in which the pair is already
stored, the routed bucket is full AND the local depth is still below
`MAX_BUCKET_DEPTH`, a duplicate `Insert` is not a no-op: it splits first —
the local depth of the key's routed slot strictly increases — and (as long
as every assert passes) still returns false.  (The recorded counterexample
shows the depth-cap hypothesis is needed: at `MAX_BUCKET_DEPTH` the
duplicate insert fails without mutating.) -/
theorem claim_C10_duplicate_full_insert_splits (hashFn : Nat → Nat)
    (cap : Nat) (st : TableState) (k v : Nat) (hInv : Inv st)
    (hst : storedAt hashFn st k v)
    (hfull : Bucket.isFull cap (routedBucket hashFn st k) = true)
    (hlt : routedDepth hashFn st k < MAX_BUCKET_DEPTH) :
    ∀ f res, insertT hashFn cap (f + 1) st k v = some res →
      routedDepth hashFn st k < routedDepth hashFn res.st k ∧
      (res.ok = true → res.ret = false) := by
  intro f res heq
  obtain ⟨hretry, _, _, hInv', hdepth', _, hfwd⟩ :=
    splitStep_spec hashFn cap st k hInv hlt
  rw [insertT_succ, fetchDirectoryPage_init hInv.1,
    insertGo_full_retry hashFn cap _ st _ k v hfull hretry] at heq
  cases hrec : insertT hashFn cap f (splitStep hashFn cap st k).st k v with
  | none =>
    simp only [hrec] at heq
    cases heq
  | some r =>
    simp only [hrec] at heq
    cases heq
    obtain ⟨_, _, hmono, _, hsr, _, _⟩ :=
      insertT_main hashFn cap k v f _ r hInv' hrec
    constructor
    · show routedDepth hashFn st k < routedDepth hashFn r.st k
      omega
    · intro hok
      show r.ret = false
      have hok2 : (splitStep hashFn cap st k).ok = true ∧ r.ok = true := by
        simpa [Bool.and_eq_true] using hok
      exact hsr (hfwd v hst hok2.1) hok2.2

set_option maxRecDepth 100000 in
/-- Witness for C10 at the table holding 0 and 512 in one full bucket of
local depth 0, re-inserting the stored pair (0, 0). -/
theorem claim_C10_duplicate_full_insert_splits_witness :
    (Inv stF ∧ storedAt id stF 0 0 ∧
     Bucket.isFull 2 (routedBucket id stF 0) = true ∧
     routedDepth id stF 0 < MAX_BUCKET_DEPTH) ∧
    (∀ f res, insertT id 2 (f + 1) stF 0 0 = some res →
      routedDepth id stF 0 < routedDepth id res.st 0 ∧
      (res.ok = true → res.ret = false)) :=
  ⟨⟨by decide, by decide, by decide, by decide⟩,
   claim_C10_duplicate_full_insert_splits id 2 stF 0 0 (by decide) (by decide)
     (by decide) (by decide)⟩

end ExtHash
